import Mathlib

/-!
# Builder assembly (`create_builder.go`)

A shallow embedding of `CreateBuilder` and its helpers from `create_builder.go`.

* Go values of type `error` are `Option Error` (`none` is `nil`); a Go result
  `(v, err)` is `Except Error α`.
* Every call to a collaborator (image fetcher, downloader, logger, builder) is
  recorded in a chronological trace of events.  A collaborator's answer may
  depend on the whole history of calls made so far, so the collaborators are
  functions of the trace at the moment of the call.
* `style.Symbol` only decorates a string for display; formatted messages keep
  their format string and their undecorated arguments.
-/

namespace Pack

/-! ## Errors -/

/-- Go error values: the sentinel `image.ErrNotFound`, errors made by
`errors.New`, `fmt.Errorf` or `errors.Errorf`, errors wrapped by
`errors.Wrap` or `errors.Wrapf`, and any other error a collaborator reports. -/
inductive Error where
  | ErrNotFound
  | New (msg : String)
  | Errorf (format : String) (args : List String)
  | Wrap (err : Error) (format : String) (args : List String)
  | External (code : Nat)
  deriving DecidableEq, Repr

/-- The root of a chain of wrapped errors, `errors.Cause`. -/
def Error.Cause : Error → Error
  | .Wrap err _ _ => err.Cause
  | .ErrNotFound => .ErrNotFound
  | .New msg => .New msg
  | .Errorf format args => .Errorf format args
  | .External code => .External code

/-! ## Data model -/

/-- Modelled from the spec: `builder.StackConfig`, the `Stack` of section 3
(`ID`, `BuildImage`, `RunImage`, `RunImageMirrors`). -/
structure Stack where
  ID : String
  BuildImage : String
  RunImage : String
  RunImageMirrors : List String
  deriving DecidableEq, Repr

/-- Modelled from the spec: `builder.BuildpackConfig`, the `BuildpackRef` of
section 3 (`URI` with the expected `ID` and `Version`, empty when not given). -/
structure BuildpackConfig where
  URI : String
  ID : String
  Version : String
  deriving DecidableEq, Repr

/-- Modelled from the spec: `builder.LifecycleConfig` of section 3 (`Version`
and `URI`, each empty when not set). -/
structure LifecycleConfig where
  Version : String
  URI : String
  deriving DecidableEq, Repr

/-- Modelled from the spec: `builder.Order`, an ordered list of buildpack
groups; nothing in `create_builder.go` looks inside it. -/
abbrev Order := List (List String)

/-- Modelled from the spec: `builder.Config`, the `BuilderConfig` of
section 3. -/
structure Config where
  Description : String
  Buildpacks : List BuildpackConfig
  Order : Order
  Stack : Stack
  Lifecycle : LifecycleConfig
  deriving DecidableEq, Repr

/-- The options of `pack create-builder`. -/
structure CreateBuilderOptions where
  BuilderName : String
  BuilderConfig : Config
  Publish : Bool
  NoPull : Bool
  deriving DecidableEq, Repr

/-- An `imgutil.Image` handle, as far as `create_builder.go` observes it: its
`Name()` and its `Label(key)` reads. -/
structure Image where
  Name : String
  Label : String → Except Error String

/-- A downloaded blob, an opaque handle. -/
structure Blob where
  handle : Nat
  deriving DecidableEq, Repr

/-- A `builder.Lifecycle`, an opaque handle. -/
structure Lifecycle where
  handle : Nat
  deriving DecidableEq, Repr

/-- The `Info` of a buildpack descriptor. -/
structure BuildpackInfo where
  ID : String
  Version : String
  deriving DecidableEq, Repr

/-- What `bp.Descriptor()` returns. -/
structure BuildpackDescriptor where
  Info : BuildpackInfo
  deriving DecidableEq, Repr

/-- A `builder.Buildpack`, as far as `create_builder.go` observes it. -/
structure Buildpack where
  Descriptor : BuildpackDescriptor
  deriving DecidableEq, Repr

/-- A `*builder.Builder` as returned by `builder.New`: its exported `StackID`.
Its mutations are recorded as events. -/
structure Builder where
  StackID : String
  deriving DecidableEq, Repr

/-- A parsed `semver.Version`, as far as `create_builder.go` observes it: the
string its `String()` method returns. -/
structure Version where
  canonical : String
  deriving DecidableEq, Repr

/-- The method `String()` of `semver.Version`. -/
def Version.String (v : Version) : String := v.canonical

/-! ## Events and collaborators -/

/-- One call to a collaborator. -/
inductive Event where
  | Fetch (name : String) (daemon : Bool) (pull : Bool)
  | Download (uri : String)
  | Warnf (format : String) (args : List String)
  | Debugf (format : String) (args : List String)
  | BuilderNew (baseImage : String) (name : String)
  | SetDescription (description : String)
  | SetMixins (mixins : List String)
  | SetLifecycle (lifecycle : Lifecycle)
  | AddBuildpack (bp : Buildpack)
  | SetOrder (order : Order)
  | SetStack (stack : Stack)
  | Save
  deriving DecidableEq, Repr

/-- The calls made so far, oldest first. -/
abbrev Trace := List Event

/-- The order in which `range` visits the keys of a Go map: unspecified, but
each key is visited exactly once. -/
structure MapRange where
  order : List String → List String
  perm : ∀ keys, (order keys).Perm keys

/-- The collaborators of `create_builder.go`.  Those that reach outside the
process answer as a function of the calls made so far. -/
structure Client where
  /-- The call `c.imageFetcher.Fetch(ctx, name, daemon, pull)`. -/
  Fetch : Trace → String → Bool → Bool → Except Error Image
  /-- The call `c.downloader.Download(ctx, uri)`. -/
  Download : Trace → String → Except Error Blob
  /-- The call `json.Unmarshal` of a label into a `[]string`. -/
  Unmarshal : String → Except Error (List String)
  /-- The iteration order of the map in `mergeMixins`. -/
  range : MapRange
  /-- The call `builder.New(baseImage, name)`. -/
  BuilderNew : Trace → Image → String → Except Error Builder
  /-- The call `bldr.SetLifecycle(lifecycle)`. -/
  SetLifecycle : Trace → Lifecycle → Option Error
  /-- The call `bldr.Save(c.logger)`. -/
  Save : Trace → Option Error
  /-- The call `builder.NewLifecycle(blob)`. -/
  NewLifecycle : Trace → Blob → Except Error Lifecycle
  /-- The call `builder.NewBuildpack(blob)`. -/
  NewBuildpack : Trace → Blob → Except Error Buildpack
  /-- The call `ensureBPSupport(uri)`. -/
  ensureBPSupport : String → Option Error
  /-- The call `semver.NewVersion(s)`. -/
  NewVersion : String → Except Error Version
  /-- The constant `builder.DefaultLifecycleVersion`. -/
  DefaultLifecycleVersion : String
  /-- The constant `builder.MixinsLabel`, the key of the mixins label. -/
  MixinsLabel : String

/-- How a call ends: with a value, with an error, or in a panic. -/
inductive Outcome (α : Type) where
  | ok (a : α)
  | error (err : Error)
  | panic
  deriving DecidableEq, Repr

/-! ## `validateBuilderConfig` -/

/-- The required fields of a builder config, checked in the order `stack.id`,
`stack.build-image`, `stack.run-image`. -/
def validateBuilderConfig (conf : Config) : Option Error :=
  if conf.Stack.ID = "" then
    some (.New "stack.id is required")
  else if conf.Stack.BuildImage = "" then
    some (.New "stack.build-image is required")
  else if conf.Stack.RunImage = "" then
    some (.New "stack.run-image is required")
  else
    none

/-! ## `mergeMixins` -/

/-- The statement `set[m] = nil` on a map used as a set, the map being its list
of distinct keys. -/
def setKey (set : List String) (m : String) : List String :=
  if m ∈ set then set else set ++ [m]

/-- Both lists are put into a map used as a set, and the keys of the map are
collected in the order `range` visits them. -/
def mergeMixins (range : MapRange) (buildMixins runMixins : List String) : List String :=
  let set := buildMixins.foldl setKey []
  let set := runMixins.foldl setKey set
  (range.order set).foldl (fun merged m => merged ++ [m]) []

/-! ## `validateBuildpack` -/

/-- The identity of a fetched buildpack against the expectations of the
config; an empty expectation accepts anything. -/
def validateBuildpack (bp : Buildpack) (source expectedID expectedBPVersion : String) :
    Option Error :=
  if expectedID ≠ "" ∧ bp.Descriptor.Info.ID ≠ expectedID then
    some (.Errorf
      "buildpack from URI %s has ID %s which does not match ID %s from builder config"
      [source, bp.Descriptor.Info.ID, expectedID])
  else if expectedBPVersion ≠ "" ∧ bp.Descriptor.Info.Version ≠ expectedBPVersion then
    some (.Errorf
      "buildpack from URI %s has version %s which does not match version %s from builder config"
      [source, bp.Descriptor.Info.Version, expectedBPVersion])
  else
    none

/-! ## `fetchLifecycle` -/

/-- The download address of the lifecycle release with the given version. -/
def uriFromLifecycleVersion (version : Version) : String :=
  "https://github.com/buildpack/lifecycle/releases/download/v" ++ version.String ++
    "/lifecycle-v" ++ version.String ++ "+linux.x86-64.tgz"

/-- The download and construction of the lifecycle, once its address is known
(the end of `fetchLifecycle`). -/
def downloadLifecycle (c : Client) (uri : String) (tr : Trace) : Outcome Lifecycle × Trace :=
  match c.Download tr uri with
  | .error err => (.error (.Wrap err "downloading lifecycle" []), tr ++ [.Download uri])
  | .ok b =>
    match c.NewLifecycle (tr ++ [.Download uri]) b with
    | .error err => (.error (.Wrap err "invalid lifecycle" []), tr ++ [.Download uri])
    | .ok lifecycle => (.ok lifecycle, tr ++ [.Download uri])

/-- The lifecycle of a builder: from the declared version, from the declared
address, or from the default version; `semver.MustParse` panics when the
default version does not parse. -/
def fetchLifecycle (c : Client) (config : LifecycleConfig) (tr : Trace) :
    Outcome Lifecycle × Trace :=
  if config.Version ≠ "" ∧ config.URI ≠ "" then
    (.error (.Errorf "%s can only declare %s or %s, not both" ["lifecycle", "version", "uri"]), tr)
  else if config.Version ≠ "" then
    match c.NewVersion config.Version with
    | .error err => (.error (.Wrap err "%s must be a valid semver" ["lifecycle.version"]), tr)
    | .ok v => downloadLifecycle c (uriFromLifecycleVersion v) tr
  else if config.URI ≠ "" then
    downloadLifecycle c config.URI tr
  else
    match c.NewVersion c.DefaultLifecycleVersion with
    | .error _ => (.panic, tr)
    | .ok v => downloadLifecycle c (uriFromLifecycleVersion v) tr

/-! ## `validateRunImageConfig` -/

/-- The registry fetch of one candidate (the second half of the body of the
first loop): `none` when the candidate is not found and dropped with a
warning. -/
def fetchFromRegistry (c : Client) (i : String) (tr : Trace) :
    Except Error (Option Image) × Trace :=
  match c.Fetch tr i false false with
  | .error err =>
    if err.Cause ≠ .ErrNotFound then
      (.error err, tr ++ [.Fetch i false false])
    else
      (.ok none, tr ++ [.Fetch i false false, .Warnf "run image %s is not accessible" [i]])
  | .ok img => (.ok (some img), tr ++ [.Fetch i false false])

/-- The body of the first loop of `validateRunImageConfig` for one candidate:
when not publishing the daemon is asked first, and the registry only when the
daemon does not have the image. -/
def fetchCandidate (c : Client) (publish : Bool) (i : String) (tr : Trace) :
    Except Error (Option Image) × Trace :=
  if !publish then
    match c.Fetch tr i true false with
    | .error err =>
      if err.Cause ≠ .ErrNotFound then
        (.error err, tr ++ [.Fetch i true false])
      else
        fetchFromRegistry c i (tr ++ [.Fetch i true false])
    | .ok img => (.ok (some img), tr ++ [.Fetch i true false])
  else
    fetchFromRegistry c i tr

/-- The first loop of `validateRunImageConfig`, over the candidates, with the
images collected so far. -/
def fetchRunImages (c : Client) (publish : Bool) :
    List String → List Image → Trace → Except Error (List Image) × Trace
  | [], runImages, tr => (.ok runImages, tr)
  | i :: rest, runImages, tr =>
    match fetchCandidate c publish i tr with
    | (.error err, tr1) => (.error err, tr1)
    | (.ok none, tr1) => fetchRunImages c publish rest runImages tr1
    | (.ok (some img), tr1) => fetchRunImages c publish rest (runImages ++ [img]) tr1

/-- The second loop of `validateRunImageConfig`: the stack label of every
collected image against the stack of the config. -/
def checkStackIDs (stackID : String) : List Image → Option Error
  | [] => none
  | img :: rest =>
    match img.Label "io.buildpacks.stack.id" with
    | .error err => some err
    | .ok id =>
      if id ≠ stackID then
        some (.Errorf "stack %s from builder config is incompatible with stack %s from run image %s"
          [stackID, id, img.Name])
      else
        checkStackIDs stackID rest

/-- The run image and its mirrors are fetched, and those found are checked
against the stack of the config. -/
def validateRunImageConfig (c : Client) (opts : CreateBuilderOptions) (tr : Trace) :
    Option Error × Trace :=
  match fetchRunImages c opts.Publish
      (opts.BuilderConfig.Stack.RunImage :: opts.BuilderConfig.Stack.RunImageMirrors) [] tr with
  | (.error err, tr1) => (some err, tr1)
  | (.ok runImages, tr1) => (checkStackIDs opts.BuilderConfig.Stack.ID runImages, tr1)

/-! ## `CreateBuilder` -/

/-- The body of the buildpack loop of `CreateBuilder` up to the validation of
the fetched buildpack. -/
def fetchBuildpack (c : Client) (b : BuildpackConfig) (tr : Trace) :
    Except Error Buildpack × Trace :=
  match c.ensureBPSupport b.URI with
  | some err => (.error err, tr)
  | none =>
    match c.Download tr b.URI with
    | .error err =>
      (.error (.Wrap err "downloading buildpack from %s" [b.URI]), tr ++ [.Download b.URI])
    | .ok blob =>
      match c.NewBuildpack (tr ++ [.Download b.URI]) blob with
      | .error err => (.error (.Wrap err "creating buildpack" []), tr ++ [.Download b.URI])
      | .ok fetchedBp =>
        match validateBuildpack fetchedBp b.URI b.ID b.Version with
        | some err => (.error (.Wrap err "invalid buildpack" []), tr ++ [.Download b.URI])
        | none => (.ok fetchedBp, tr ++ [.Download b.URI])

/-- The buildpack loop of `CreateBuilder`: every buildpack of the config, in
order, is fetched, validated and added to the builder. -/
def addBuildpacks (c : Client) : List BuildpackConfig → Trace → Option Error × Trace
  | [], tr => (none, tr)
  | b :: rest, tr =>
    match fetchBuildpack c b tr with
    | (.error err, tr1) => (some err, tr1)
    | (.ok fetchedBp, tr1) => addBuildpacks c rest (tr1 ++ [.AddBuildpack fetchedBp])

/-- The mixins of an image: the label `builder.MixinsLabel`, decoded when it is
not empty. -/
def readMixins (c : Client) (img : Image) (mixinsLabel : String) : Except Error (List String) :=
  match img.Label mixinsLabel with
  | .error err => .error err
  | .ok mixinsData => if mixinsData ≠ "" then c.Unmarshal mixinsData else .ok []

/-- The command `pack create-builder`. -/
def CreateBuilder (c : Client) (opts : CreateBuilderOptions) (tr : Trace) :
    Outcome Unit × Trace :=
  match validateBuilderConfig opts.BuilderConfig with
  | some err => (.error (.Wrap err "invalid builder config" []), tr)
  | none =>
  match validateRunImageConfig c opts tr with
  | (some err, tr) => (.error err, tr)
  | (none, tr) =>
  let ev := Event.Fetch opts.BuilderConfig.Stack.BuildImage (!opts.Publish) (!opts.NoPull)
  match c.Fetch tr opts.BuilderConfig.Stack.BuildImage (!opts.Publish) (!opts.NoPull), tr ++ [ev] with
  | .error err, tr => (.error err, tr)
  | .ok baseImage, tr =>
  let ev := Event.Fetch opts.BuilderConfig.Stack.RunImage (!opts.Publish) (!opts.NoPull)
  match c.Fetch tr opts.BuilderConfig.Stack.RunImage (!opts.Publish) (!opts.NoPull), tr ++ [ev] with
  | .error err, tr =>
    (.error (.Wrap err "fetching run image %s" [opts.BuilderConfig.Stack.RunImage]), tr)
  | .ok runImage, tr =>
  match readMixins c baseImage c.MixinsLabel with
  | .error err => (.error err, tr)
  | .ok buildMixins =>
  match readMixins c runImage c.MixinsLabel with
  | .error err => (.error err, tr)
  | .ok runMixins =>
  let mixins := mergeMixins c.range buildMixins runMixins
  let ev := Event.Debugf "Creating builder %s from build-image %s" [opts.BuilderName, baseImage.Name]
  match c.BuilderNew (tr ++ [ev]) baseImage opts.BuilderName,
      tr ++ [ev, .BuilderNew baseImage.Name opts.BuilderName] with
  | .error err, tr => (.error (.Wrap err "invalid build-image" []), tr)
  | .ok bldr, tr =>
  let tr := tr ++ [.SetDescription opts.BuilderConfig.Description]
  if bldr.StackID ≠ opts.BuilderConfig.Stack.ID then
    (.error (.Errorf "stack %s from builder config is incompatible with stack %s from build image"
      [opts.BuilderConfig.Stack.ID, bldr.StackID]), tr)
  else
  let tr := tr ++ [.SetMixins mixins]
  match fetchLifecycle c opts.BuilderConfig.Lifecycle tr with
  | (.panic, tr) => (.panic, tr)
  | (.error err, tr) => (.error (.Wrap err "fetch lifecycle" []), tr)
  | (.ok lifecycle, tr) =>
  match c.SetLifecycle tr lifecycle, tr ++ [.SetLifecycle lifecycle] with
  | some err, tr => (.error (.Wrap err "setting lifecycle" []), tr)
  | none, tr =>
  match addBuildpacks c opts.BuilderConfig.Buildpacks tr with
  | (some err, tr) => (.error err, tr)
  | (none, tr) =>
  let tr := tr ++ [.SetOrder opts.BuilderConfig.Order, .SetStack opts.BuilderConfig.Stack]
  match c.Save tr with
  | some err => (.error err, tr ++ [.Save])
  | none => (.ok (), tr ++ [.Save])

/-! ## Reading a trace -/

/-- Whether the event is a call to `Fetch`. -/
def Event.isFetch : Event → Bool
  | .Fetch _ _ _ => true
  | _ => false

/-- Whether the event is a call to `Fetch` on the local daemon. -/
def Event.isDaemonFetch : Event → Bool
  | .Fetch _ true _ => true
  | _ => false

/-- The event `e` is one of the events `evs` that follow the trace `tr`, and
`h` is the history at the moment of `e`: the trace `tr` and the events of
`evs` before `e`. -/
def Occurs (tr : Trace) (evs : List Event) (h : Trace) (e : Event) : Prop :=
  ∃ pre post, evs = pre ++ e :: post ∧ h = tr ++ pre

/-- The event `e` is one of the events `evs` that follow the trace `tr`, `h`
is the history at the moment of `e`, and `post` are the events of `evs` after
`e`. -/
def OccursBefore (tr : Trace) (evs : List Event) (h : Trace) (e : Event) (post : List Event) :
    Prop :=
  ∃ pre, evs = pre ++ e :: post ∧ h = tr ++ pre

/-- The accepted candidates of section 4.6 of the specification, for an image
fetcher whose fetches either succeed or report not-found, written after the
words of the specification and not after the code: for the run image and each
mirror in declared order, when not publishing the local daemon is asked first
and an image found there is accepted without a registry fetch; otherwise the
registry is asked, an image found there is accepted, and a candidate not found
is dropped with a warning. `h` is the history of calls at the first
candidate. -/
def acceptedCandidates (c : Client) (publish : Bool) : List String → Trace → List Image
  | [], _ => []
  | i :: rest, h =>
    match publish with
    | false =>
      match c.Fetch h i true false with
      | .ok img => img :: acceptedCandidates c publish rest (h ++ [.Fetch i true false])
      | .error _ =>
        match c.Fetch (h ++ [.Fetch i true false]) i false false with
        | .ok img =>
          img :: acceptedCandidates c publish rest
            (h ++ [.Fetch i true false, .Fetch i false false])
        | .error _ =>
          acceptedCandidates c publish rest
            (h ++ [.Fetch i true false, .Fetch i false false,
              .Warnf "run image %s is not accessible" [i]])
    | true =>
      match c.Fetch h i false false with
      | .ok img => img :: acceptedCandidates c publish rest (h ++ [.Fetch i false false])
      | .error _ =>
        acceptedCandidates c publish rest
          (h ++ [.Fetch i false false, .Warnf "run image %s is not accessible" [i]])

/-! ## Acquisition of the buildpacks -/

/-- The calls of the buildpack loop of `CreateBuilder` when every buildpack is
acquired: for each buildpack of the config, in order, its download followed by
its addition to the builder. -/
def acquisitionEvents : List BuildpackConfig → List Buildpack → List Event
  | b :: rest, fb :: fbs => .Download b.URI :: .AddBuildpack fb :: acquisitionEvents rest fbs
  | _, _ => []

/-- Starting from the trace `tr`, every buildpack of the list has been acquired
and validated in declared order, giving the buildpacks `fbs`: its source is
supported, its download succeeds, the blob parses as `fb`, and `fb` has the
expected identity. -/
def Acquired (c : Client) : List BuildpackConfig → List Buildpack → Trace → Prop
  | [], [], _ => True
  | b :: rest, fb :: fbs, tr =>
    c.ensureBPSupport b.URI = none ∧
    (∃ blob, c.Download tr b.URI = .ok blob ∧
      c.NewBuildpack (tr ++ [.Download b.URI]) blob = .ok fb) ∧
    validateBuildpack fb b.URI b.ID b.Version = none ∧
    Acquired c rest fbs (tr ++ [.Download b.URI, .AddBuildpack fb])
  | _, _, _ => False

/-- The buildpack fails one of the four steps of its acquisition whenever it is
attempted: the check of its source, its download, its parsing, or the
validation of its identity. -/
def FailsAcquisition (c : Client) (b : BuildpackConfig) : Prop :=
  (∃ err, c.ensureBPSupport b.URI = some err) ∨
  (∀ tr, ∃ err, c.Download tr b.URI = .error err) ∨
  (∀ tr blob, c.Download tr b.URI = .ok blob →
    ∃ err, c.NewBuildpack (tr ++ [.Download b.URI]) blob = .error err) ∨
  (∀ tr blob fb, c.Download tr b.URI = .ok blob →
    c.NewBuildpack (tr ++ [.Download b.URI]) blob = .ok fb →
    ∃ err, validateBuildpack fb b.URI b.ID b.Version = some err)

/-- The trace `tr'` continues the trace `tr` with calls none of which is
`Save`. -/
def ExtendsWithoutSave (tr tr' : Trace) : Prop :=
  ∃ evs, tr' = tr ++ evs ∧ Event.Save ∉ evs

/-- The two ways a run of `CreateBuilder` from the trace `tr` can end in
`res`. Either it stops before the end, with an error (or in the panic of
`semver.MustParse`), and has not saved; or it has acquired every buildpack
and then set the order and the stack and called `Save`, once, as its last
call. -/
def Assembled (c : Client) (opts : CreateBuilderOptions) (tr : Trace)
    (res : Outcome Unit × Trace) : Prop :=
  (ExtendsWithoutSave tr res.2 ∧
    ((∃ err, res.1 = .error err) ∨
      (res.1 = .panic ∧ opts.BuilderConfig.Lifecycle.Version = "" ∧
        opts.BuilderConfig.Lifecycle.URI = "" ∧
        ∃ err, c.NewVersion c.DefaultLifecycleVersion = .error err))) ∨
  (∃ pre fbs, Event.Save ∉ pre ∧
    Acquired c opts.BuilderConfig.Buildpacks fbs (tr ++ pre) ∧
    res.2 = tr ++ pre ++ acquisitionEvents opts.BuilderConfig.Buildpacks fbs ++
      [.SetOrder opts.BuilderConfig.Order, .SetStack opts.BuilderConfig.Stack, .Save] ∧
    (∃ trL lc trL', fetchLifecycle c opts.BuilderConfig.Lifecycle trL = (.ok lc, trL')) ∧
    (res.1 = .ok () ∨ ∃ err, res.1 = .error err))

/-! ## `InspectBuilder` and `getBuilderDescription` -/

/-- Modelled from the spec: `builder.BuildpackMetadata`, an entry of the
buildpacks of a builder; nothing in `inspect_builder.go` looks inside it. -/
structure BuildpackMetadata where
  ID : String
  Version : String
  Latest : Bool
  deriving DecidableEq, Repr

/-- Modelled from the spec: `builder.LifecycleDescriptor`; nothing in
`inspect_builder.go` looks inside it. -/
structure LifecycleDescriptor where
  Version : String
  deriving DecidableEq, Repr

/-- Modelled from the spec: `builder.CreatorMetadata`; nothing in
`inspect_builder.go` looks inside it. -/
structure CreatorMetadata where
  Name : String
  Version : String
  deriving DecidableEq, Repr

/-- What `InspectBuilder` reports of a builder. -/
structure BuilderInfo where
  Description : String
  Stack : String
  RunImage : String
  RunImageMirrors : List String
  Buildpacks : List BuildpackMetadata
  Groups : Order
  Lifecycle : LifecycleDescriptor
  CreatedBy : CreatorMetadata
  deriving DecidableEq, Repr

/-- A `*builder.Builder` as returned by `builder.Get`, as far as
`InspectBuilder` reads it: `Description()`, `StackID`, the run image and the
mirrors of `Stack()`, `Buildpacks()`, `Order()`, `LifecycleDescriptor()` and
`CreatedBy()`. -/
structure GotBuilder where
  Description : String
  StackID : String
  StackRunImage : String
  StackRunImageMirrors : List String
  Buildpacks : List BuildpackMetadata
  Order : Order
  LifecycleDescriptor : LifecycleDescriptor
  CreatedBy : CreatorMetadata
  deriving DecidableEq, Repr

/-- The method `InspectBuilder` of the client, with `builder.Get` as `get`. The
result is the pair `(*BuilderInfo, error)` of Go, `none` standing for `nil`:
both are `nil` when the image is not found. -/
def InspectBuilder (c : Client) (get : Image → Except Error GotBuilder) (name : String)
    (daemon : Bool) (tr : Trace) : (Option BuilderInfo × Option Error) × Trace :=
  match c.Fetch tr name daemon false with
  | .error err =>
    if err.Cause = .ErrNotFound then
      ((none, none), tr ++ [.Fetch name daemon false])
    else
      ((none, some err), tr ++ [.Fetch name daemon false])
  | .ok img =>
    match get img with
    | .error err =>
      ((none, some (.Wrap err "invalid builder %s" [name])), tr ++ [.Fetch name daemon false])
    | .ok bldr =>
      ((some
        { Description := bldr.Description
          Stack := bldr.StackID
          RunImage := bldr.StackRunImage
          RunImageMirrors := bldr.StackRunImageMirrors
          Buildpacks := bldr.Buildpacks
          Groups := bldr.Order
          Lifecycle := bldr.LifecycleDescriptor
          CreatedBy := bldr.CreatedBy }, none), tr ++ [.Fetch name daemon false])

/-- The interface `PackClient` of the commands, as far as
`getBuilderDescription` uses it. -/
structure PackClient where
  InspectBuilder : String → Bool → Option BuilderInfo × Option Error

/-- The map `defaultBuilderDescriptions`, as its lookup. -/
def defaultBuilderDescriptions (builderName : String) : Option String :=
  if builderName = "cloudfoundry/cnb:bionic" then
    some "Small base image with Java & Node.js"
  else if builderName = "cloudfoundry/cnb:cflinuxfs3" then
    some "Larger base image with Java, Node.js & Python"
  else if builderName = "heroku/buildpacks:18" then
    some "heroku-18 base image with buildpacks for Ruby, Java, Node.js, Python, Golang, & PHP"
  else
    none

/-- The end of `getBuilderDescription`: an empty description is replaced by
the default description of the builder, when there is one. -/
def orDefaultDescription (builderName desc : String) : String :=
  if desc = "" then
    match defaultBuilderDescriptions builderName with
    | some defaultDesc => defaultDesc
    | none => desc
  else
    desc

/-- The description shown for a suggested builder. When `InspectBuilder`
returns no error, `info.Description` is read without a check of `info`: with
`info` being `nil` this is a nil pointer dereference, a panic. -/
def getBuilderDescription (builderName : String) (client : PackClient) : Outcome String :=
  match client.InspectBuilder builderName false with
  | (_, some _) => .ok (orDefaultDescription builderName "")
  | (some info, none) => .ok (orDefaultDescription builderName info.Description)
  | (none, none) => .panic

/-! ## Rebase

The file `rebase.go` is not among the sources: its test `rebase_test.go` is.
The resolver of the run image and the rebase are modelled from sections 4.7
and 4.8 of the specification, with the names the test uses. -/

/-- Modelled from the spec: `RebaseOptions` of section 3, with the field names
of `rebase_test.go`; the map `AdditionalMirrors` is its lookup, empty for a key
that is not configured. -/
structure RebaseOptions where
  RepoName : String
  RunImage : String
  AdditionalMirrors : String → List String
  Publish : Bool
  SkipPull : Bool

/-- Modelled from the spec: the `runImage` field of the lifecycle metadata
label of section 3, the top layer and the reference of the base. -/
structure RunImageMetadata where
  TopLayer : String
  Reference : String
  deriving DecidableEq, Repr

/-- Modelled from the spec: the `stack.runImage` field of the lifecycle
metadata label of section 3, the run image and its mirrors. -/
structure StackRunImageMetadata where
  Image : String
  Mirrors : List String
  deriving DecidableEq, Repr

/-- Modelled from the spec: the `LifecycleMetadataLabel` of section 3; `Other`
stands for the fields the rebase does not read. -/
structure AppImageMetadata where
  RunImage : RunImageMetadata
  StackRunImage : StackRunImageMetadata
  Other : String
  deriving DecidableEq, Repr

/-- Modelled from the spec: the `ImageHandle` of section 6, as its state: what
`Name()`, `Base()`, `TopLayer()`, `Reference()` and `Label(key)` return. -/
structure ImageHandle where
  Name : String
  Base : String
  TopLayer : String
  Reference : String
  Label : String → Except Error String

/-- One call of a rebase to a collaborator. -/
inductive RebaseEvent where
  | Fetch (name : String) (daemon : Bool) (pull : Bool)
  | Rebase (appImage : String) (newBase : String)
  | SetLabel (image : String) (key : String) (value : String)
  | Save (image : String)
  deriving DecidableEq, Repr

/-- Modelled from the spec: the collaborators of the rebase of section 6. Each
answers as a function of the calls made so far. `Rebaser`, `SetLabel` and
`Save` give the error of the call, if any; the effect of a successful call is
part of `Rebase`. `domain` gives the registry host of a reference, the empty
string for the default registry. -/
structure RebaseClient where
  Fetch : List RebaseEvent → String → Bool → Bool → Except Error ImageHandle
  Unmarshal : String → Except Error AppImageMetadata
  Marshal : AppImageMetadata → Except Error String
  Rebaser : List RebaseEvent → ImageHandle → ImageHandle → Option Error
  SetLabel : List RebaseEvent → ImageHandle → String → String → Option Error
  Save : List RebaseEvent → ImageHandle → Option Error
  domain : String → String

/-- The key of the lifecycle metadata label, as `rebase_test.go` writes it. -/
def MetadataLabel : String := "io.buildpacks.lifecycle.metadata"

/-- Modelled from the spec: the error `MissingRunImageError` of section 4.7,
with the message `rebase_test.go` expects. -/
def MissingRunImageError : Error := .New "run image must be specified"

/-- Modelled from the spec: the priority-ordered candidate list of section
4.7: the configured mirrors of the label's run image, then the mirrors of the
label, then the label's run image itself, possibly empty. -/
def runImageCandidates (labelRunImage : String) (labelMirrors : List String)
    (additionalMirrors : String → List String) : List String :=
  additionalMirrors labelRunImage ++ labelMirrors ++ [labelRunImage]

/-- Modelled from the spec: a candidate matches a repository name when it has
the same registry domain (section 4.7). The empty string is no image reference
and matches nothing: scenario E of section 8 and the test `returns an error` of
`rebase_test.go` want an error for an empty label on `some/app`, where an
empty candidate on the default registry would otherwise be returned. -/
def matchesDomain (domain : String → String) (repoName candidate : String) : Bool :=
  candidate ≠ "" ∧ domain candidate = domain repoName

/-- Modelled from the spec: the run-image candidate resolver of section 4.7
(`rebase.go` is not among the sources). An override is returned at once;
otherwise the first candidate with the domain of `repoName`; otherwise the
label's run image when it is not empty; otherwise `MissingRunImageError`. -/
def resolveRunImage (domain : String → String) (repoName labelRunImage : String)
    (labelMirrors : List String) (override : String)
    (additionalMirrors : String → List String) : Except Error String :=
  if override ≠ "" then
    .ok override
  else
    match (runImageCandidates labelRunImage labelMirrors additionalMirrors).find?
        (matchesDomain domain repoName) with
    | some candidate => .ok candidate
    | none => if labelRunImage ≠ "" then .ok labelRunImage else .error MissingRunImageError

/-- Modelled from the spec: step 2 of section 4.8, the lifecycle metadata of
the application image; an absent label gives an empty run image and no
mirrors. -/
def readAppMetadata (c : RebaseClient) (appImage : ImageHandle) : Except Error AppImageMetadata :=
  match appImage.Label MetadataLabel with
  | .error err => .error err
  | .ok contents => if contents = "" then .ok ⟨⟨"", ""⟩, ⟨"", []⟩, ""⟩ else c.Unmarshal contents

/-- Modelled from the spec: the rebase of section 4.8 (`rebase.go` is not among
the sources). The application image is fetched (daemon iff not publishing,
pull unless `SkipPull`), its metadata read, the run image resolved and fetched
with the same policy, the base swapped by the rebaser, the `runImage` field of
the metadata label rewritten to the top layer and the reference of the new
base, and the image saved. Any failure ends the rebase before the save. The
result is the saved state of the application image. -/
def Rebase (c : RebaseClient) (opts : RebaseOptions) (tr : List RebaseEvent) :
    Except Error ImageHandle × List RebaseEvent :=
  match c.Fetch tr opts.RepoName (!opts.Publish) (!opts.SkipPull),
      tr ++ [.Fetch opts.RepoName (!opts.Publish) (!opts.SkipPull)] with
  | .error err, tr => (.error err, tr)
  | .ok appImage, tr =>
  match readAppMetadata c appImage with
  | .error err => (.error err, tr)
  | .ok md =>
  match resolveRunImage c.domain opts.RepoName md.StackRunImage.Image md.StackRunImage.Mirrors
      opts.RunImage opts.AdditionalMirrors with
  | .error err => (.error err, tr)
  | .ok runImageName =>
  match c.Fetch tr runImageName (!opts.Publish) (!opts.SkipPull),
      tr ++ [.Fetch runImageName (!opts.Publish) (!opts.SkipPull)] with
  | .error err, tr => (.error err, tr)
  | .ok newBase, tr =>
  match c.Rebaser tr appImage newBase, tr ++ [.Rebase appImage.Name newBase.Name] with
  | some err, tr => (.error err, tr)
  | none, tr =>
  let appImage := { appImage with Base := newBase.Name }
  match c.Marshal { md with RunImage := ⟨newBase.TopLayer, newBase.Reference⟩ } with
  | .error err => (.error err, tr)
  | .ok contents =>
  match c.SetLabel tr appImage MetadataLabel contents,
      tr ++ [.SetLabel appImage.Name MetadataLabel contents] with
  | some err, tr => (.error err, tr)
  | none, tr =>
  let appImage :=
    { appImage with Label := fun key => if key = MetadataLabel then .ok contents else appImage.Label key }
  match c.Save tr appImage with
  | some err => (.error err, tr ++ [.Save appImage.Name])
  | none => (.ok appImage, tr ++ [.Save appImage.Name])

/-- The rebase from the trace `tr`, of an application image with the metadata
`md`, uses the run image `name`: after the application image, `name` is the one
image it fetches; and when the rebase succeeds, the saved application image
has the image fetched under `name` as its base, and its metadata label is `md`
with the `runImage` field set to the top layer and the reference of that
image. -/
def UsesRunImage (c : RebaseClient) (opts : RebaseOptions) (tr : List RebaseEvent)
    (md : AppImageMetadata) (name : String) : Prop :=
  ∃ rest, (Rebase c opts tr).2 =
      tr ++ .Fetch opts.RepoName (!opts.Publish) (!opts.SkipPull) ::
        .Fetch name (!opts.Publish) (!opts.SkipPull) :: rest ∧
    (∀ n d p, RebaseEvent.Fetch n d p ∉ rest) ∧
    ∀ img, (Rebase c opts tr).1 = .ok img →
      ∃ newBase contents,
        c.Fetch (tr ++ [.Fetch opts.RepoName (!opts.Publish) (!opts.SkipPull)]) name
          (!opts.Publish) (!opts.SkipPull) = .ok newBase ∧
        img.Base = newBase.Name ∧
        c.Marshal { md with RunImage := ⟨newBase.TopLayer, newBase.Reference⟩ } = .ok contents ∧
        img.Label MetadataLabel = .ok contents

/-! ## Sample collaborators -/

/-- An image with the given name and stack label, and no mixins label. -/
def sampleImage (name stackID : String) : Image where
  Name := name
  Label := fun key => if key = "io.buildpacks.stack.id" then .ok stackID else .ok ""

/-- A world in which every image exists in the registry only, on the stack
`some.stack`, every address but `bad-uri` downloads, and everything parses. -/
def sampleClient : Client where
  Fetch := fun _ name daemon _ =>
    if daemon then .error .ErrNotFound else .ok (sampleImage name "some.stack")
  Download := fun _ uri => if uri = "bad-uri" then .error (.External 1) else .ok ⟨0⟩
  Unmarshal := fun _ => .ok []
  range := ⟨id, fun _ => List.Perm.refl _⟩
  BuilderNew := fun _ _ _ => .ok ⟨"some.stack"⟩
  SetLifecycle := fun _ _ => none
  Save := fun _ => none
  NewLifecycle := fun _ _ => .ok ⟨0⟩
  NewBuildpack := fun _ _ => .ok ⟨⟨⟨"bp.one", "1.2.3"⟩⟩⟩
  ensureBPSupport := fun _ => none
  NewVersion := fun s => if s = "not-semver" then .error (.External 2) else .ok ⟨s⟩
  DefaultLifecycleVersion := "0.4.0"
  MixinsLabel := "io.buildpacks.stack.mixins"

/-- A builder config with the given stack and buildpacks, and no lifecycle
declared. -/
def sampleConfig (stack : Stack) (buildpacks : List BuildpackConfig) : Config where
  Description := "a builder"
  Buildpacks := buildpacks
  Order := []
  Stack := stack
  Lifecycle := ⟨"", ""⟩

/-- Options to create `some/builder` locally from the given config. -/
def sampleOptions (conf : Config) : CreateBuilderOptions where
  BuilderName := "some/builder"
  BuilderConfig := conf
  Publish := false
  NoPull := false

/-- A world in which every fetch fails with an error that is not
`ErrNotFound`. -/
def unreachableClient : Client :=
  { sampleClient with Fetch := fun _ _ _ _ => .error (.External 7) }

/-- Options to publish a builder on the stack `some.stack` whose run image
`some/run` has the mirror `example.com/some/run`. -/
def publishOptions : CreateBuilderOptions :=
  { sampleOptions (sampleConfig ⟨"some.stack", "some/build", "some/run", ["example.com/some/run"]⟩ [])
      with Publish := true }

/-- Options to create locally a builder on the stack `other.stack` whose run
image is `some/run`, without mirrors. -/
def otherStackOptions : CreateBuilderOptions :=
  sampleOptions (sampleConfig ⟨"other.stack", "some/build", "some/run", []⟩ [])

/-- Options to publish a builder on the stack `some.stack` with the given
lifecycle and buildpacks. -/
def builderOptions (lifecycle : LifecycleConfig) (buildpacks : List BuildpackConfig) :
    CreateBuilderOptions :=
  { sampleOptions { sampleConfig ⟨"some.stack", "some/build", "some/run", []⟩ buildpacks
      with Lifecycle := lifecycle }
    with Publish := true }

/-- A world in which no image is found, in the daemon or in the registry. -/
def missingImageClient : Client :=
  { sampleClient with Fetch := fun _ _ _ _ => .error .ErrNotFound }

/-- A `builder.Get` that reads a builder described as `a builder` from every
image. -/
def sampleGet (img : Image) : Except Error GotBuilder :=
  .ok ⟨"a builder", "some.stack", img.Name, [], [], [], ⟨"0.4.0"⟩, ⟨"pack", "0.4.0"⟩⟩

/-- The client of the commands made of a client, a `builder.Get` and the calls
made so far. -/
def packClientOf (c : Client) (get : Image → Except Error GotBuilder) (tr : Trace) : PackClient where
  InspectBuilder := fun name daemon => (InspectBuilder c get name daemon tr).1

/-- A registry domain in the manner of Docker references: the first component
of a reference with a slash, when it holds a dot or a colon or is `localhost`;
otherwise the empty string, the default registry. -/
def sampleDomain (ref : String) : String :=
  let host := ref.data.takeWhile (fun ch => ch ≠ '/')
  if '/' ∈ ref.data ∧ ('.' ∈ host ∨ ':' ∈ host ∨ host = "localhost".data) then String.mk host else ""

/-- The label of the application image of `rebase_test.go`: run image
`some/run` with the mirror `example.com/some/run`. -/
def testAppLabel : String :=
  "\x7b\"stack\":\x7b\"runImage\":\x7b\"image\":\"some/run\", \"mirrors\":[\"example.com/some/run\"]\x7d\x7d\x7d"

/-- The images of `rebase_test.go`, the application image carrying the given
metadata label under both of its names. -/
def testImages (appLabel : String) : List ImageHandle :=
  [ ⟨"some/app", "", "", "app-image",
      fun key => if key = MetadataLabel then .ok appLabel else .ok ""⟩,
    ⟨"example.com/some/app", "", "", "app-image",
      fun key => if key = MetadataLabel then .ok appLabel else .ok ""⟩,
    ⟨"some/run", "", "run-image-top-layer-sha", "run-image-digest", fun _ => .ok ""⟩,
    ⟨"example.com/some/run", "", "mirror-top-layer-sha", "mirror-digest", fun _ => .ok ""⟩,
    ⟨"custom/run", "", "custom-base-top-layer-sha", "custom-base-digest", fun _ => .ok ""⟩,
    ⟨"example.com/some/local-run", "", "local-mirror-top-layer-sha", "local-mirror-digest",
      fun _ => .ok ""⟩ ]

/-- The world of `rebase_test.go`: the images above, a decoder that knows the
two labels of the test, an encoder that writes the `runImage` field, and calls
that do not fail. -/
def testRebaseClient (appLabel : String) : RebaseClient where
  Fetch := fun _ name _ _ =>
    match (testImages appLabel).find? (fun img => img.Name = name) with
    | some img => .ok img
    | none => .error .ErrNotFound
  Unmarshal := fun contents =>
    if contents = testAppLabel then .ok ⟨⟨"", ""⟩, ⟨"some/run", ["example.com/some/run"]⟩, ""⟩
    else if contents = "\x7b\x7d" then .ok ⟨⟨"", ""⟩, ⟨"", []⟩, ""⟩
    else .error (.External 3)
  Marshal := fun md =>
    .ok ("\x7b\"runImage\":\x7b\"topLayer\":\"" ++ md.RunImage.TopLayer ++ "\",\"reference\":\"" ++
      md.RunImage.Reference ++ "\"\x7d,\"stack\":\x7b\"runImage\":\x7b\"image\":\"" ++
      md.StackRunImage.Image ++ "\"\x7d\x7d\x7d")
  Rebaser := fun _ _ _ => none
  SetLabel := fun _ _ _ _ => none
  Save := fun _ _ => none
  domain := sampleDomain

/-- Options to rebase the given repository, with the given override and the
given configured mirrors of `some/run`. -/
def testRebaseOptions (repoName override : String) (mirrors : List String) : RebaseOptions where
  RepoName := repoName
  RunImage := override
  AdditionalMirrors := fun image => if image = "some/run" then mirrors else []
  Publish := false
  SkipPull := false

/-- The base of the application image after a rebase, or the error. -/
def baseAfter (res : Except Error ImageHandle × List RebaseEvent) : Outcome String :=
  match res.1 with
  | .ok img => .ok img.Base
  | .error err => .error err

/-- The metadata label of the application image after a rebase, or the
error. -/
def labelAfter (res : Except Error ImageHandle × List RebaseEvent) : Outcome String :=
  match res.1 with
  | .ok img =>
    match img.Label MetadataLabel with
    | .ok contents => .ok contents
    | .error err => .error err
  | .error err => .error err

/-- The application image of `rebase_test.go` under the name `some/app`. -/
def testAppImage (appLabel : String) : ImageHandle :=
  ⟨"some/app", "", "", "app-image", fun key => if key = MetadataLabel then .ok appLabel else .ok ""⟩

/-- The application image of `rebase_test.go` under the name
`example.com/some/app`. -/
def testMirrorAppImage (appLabel : String) : ImageHandle :=
  ⟨"example.com/some/app", "", "", "app-image",
    fun key => if key = MetadataLabel then .ok appLabel else .ok ""⟩

/-- The metadata of the application image of `rebase_test.go`. -/
def testMetadata : AppImageMetadata :=
  ⟨⟨"", ""⟩, ⟨"some/run", ["example.com/some/run"]⟩, ""⟩

/-! # Theorems -/

/-! ## Config validation -/

example : validateBuilderConfig (sampleConfig ⟨"s", "b", "r", []⟩ []) = none := by decide
example : validateBuilderConfig (sampleConfig ⟨"s", "", "r", []⟩ []) =
    some (.New "stack.build-image is required") := by decide

/-- The verdict of `validateBuilderConfig` in terms of the three required
fields. -/
theorem validateBuilderConfig_eq_some (conf : Config)
    (h : conf.Stack.ID = "" ∨ conf.Stack.BuildImage = "" ∨ conf.Stack.RunImage = "") :
    ∃ err, validateBuilderConfig conf = some err := by
  unfold validateBuilderConfig
  by_cases h1 : conf.Stack.ID = "" <;> by_cases h2 : conf.Stack.BuildImage = "" <;>
    by_cases h3 : conf.Stack.RunImage = "" <;> simp_all

/-- C2: `validateBuilderConfig` returns an error exactly when one of `Stack.ID`,
`Stack.BuildImage`, `Stack.RunImage` is empty, returns nil exactly when all
three are non-empty, and any two configs that agree on these three fields get
the same result. -/
theorem validateBuilderConfig_iff (conf : Config) :
    ((∃ err, validateBuilderConfig conf = some err) ↔
      (conf.Stack.ID = "" ∨ conf.Stack.BuildImage = "" ∨ conf.Stack.RunImage = "")) ∧
    (validateBuilderConfig conf = none ↔
      (conf.Stack.ID ≠ "" ∧ conf.Stack.BuildImage ≠ "" ∧ conf.Stack.RunImage ≠ "")) ∧
    (∀ conf' : Config, conf'.Stack.ID = conf.Stack.ID →
      conf'.Stack.BuildImage = conf.Stack.BuildImage →
      conf'.Stack.RunImage = conf.Stack.RunImage →
      validateBuilderConfig conf' = validateBuilderConfig conf) := by
  refine ⟨?_, ?_, ?_⟩
  · unfold validateBuilderConfig
    by_cases h1 : conf.Stack.ID = "" <;> by_cases h2 : conf.Stack.BuildImage = "" <;>
      by_cases h3 : conf.Stack.RunImage = "" <;> simp [h1, h2, h3]
  · unfold validateBuilderConfig
    by_cases h1 : conf.Stack.ID = "" <;> by_cases h2 : conf.Stack.BuildImage = "" <;>
      by_cases h3 : conf.Stack.RunImage = "" <;> simp [h1, h2, h3]
  · intro conf' h1 h2 h3
    unfold validateBuilderConfig
    rw [h1, h2, h3]

/-- C2 at concrete configs: a config with an empty build image is rejected, and
changing the description, the mirrors and the buildpacks of a config does not
change the verdict. -/
theorem validateBuilderConfig_iff_witness :
    (∃ err, validateBuilderConfig (sampleConfig ⟨"s", "", "r", []⟩ []) = some err) ∧
    validateBuilderConfig
        { sampleConfig ⟨"s", "b", "r", ["m"]⟩ [⟨"u", "", ""⟩] with Description := "other" } =
      validateBuilderConfig (sampleConfig ⟨"s", "b", "r", []⟩ []) :=
  ⟨(validateBuilderConfig_iff (sampleConfig ⟨"s", "", "r", []⟩ [])).1.2 (Or.inr (Or.inl rfl)),
   (validateBuilderConfig_iff (sampleConfig ⟨"s", "b", "r", []⟩ [])).2.2 _ rfl rfl rfl⟩

/-- C1: when `Stack.ID`, `Stack.BuildImage` or `Stack.RunImage` of the config is
empty, `CreateBuilder` returns an error and the trace of calls is left as it
was: no `Fetch`, no `Download`, no call to any collaborator, whatever the
collaborators would have answered. -/
theorem CreateBuilder_invalid_config (c : Client) (opts : CreateBuilderOptions) (tr : Trace)
    (h : opts.BuilderConfig.Stack.ID = "" ∨ opts.BuilderConfig.Stack.BuildImage = "" ∨
      opts.BuilderConfig.Stack.RunImage = "") :
    (∃ err, (CreateBuilder c opts tr).1 = .error err) ∧ (CreateBuilder c opts tr).2 = tr := by
  obtain ⟨err, herr⟩ := validateBuilderConfig_eq_some opts.BuilderConfig h
  unfold CreateBuilder
  rw [herr]
  exact ⟨⟨_, rfl⟩, rfl⟩

/-- C1 at a concrete input: a config without run image, in a world where every
fetch and download would succeed. -/
theorem CreateBuilder_invalid_config_witness :
    (∃ err, (CreateBuilder sampleClient (sampleOptions (sampleConfig ⟨"s", "b", "", []⟩ [])) []).1
      = .error err) ∧
    (CreateBuilder sampleClient (sampleOptions (sampleConfig ⟨"s", "b", "", []⟩ [])) []).2 = [] :=
  CreateBuilder_invalid_config sampleClient _ [] (Or.inr (Or.inr rfl))

/-! ## Mixins -/

example : mergeMixins ⟨id, fun _ => List.Perm.refl _⟩ ["a", "b", "a"] ["b", "c"] = ["a", "b", "c"] := by
  decide
example : mergeMixins ⟨List.reverse, fun _ => List.reverse_perm _⟩ ["a", "b"] ["b", "c"] =
    ["c", "b", "a"] := by
  decide

theorem mem_setKey (set : List String) (m x : String) :
    x ∈ setKey set m ↔ x ∈ set ∨ x = m := by
  unfold setKey
  split
  · constructor
    · exact Or.inl
    · rintro (h | h)
      · exact h
      · subst h; assumption
  · simp

theorem nodup_setKey (set : List String) (m : String) (h : set.Nodup) :
    (setKey set m).Nodup := by
  unfold setKey
  split
  · exact h
  · rename_i hm
    exact List.Nodup.append h (List.nodup_singleton m) (by simpa using hm)

theorem mem_foldl_setKey (l : List String) :
    ∀ (set : List String) (x : String), x ∈ l.foldl setKey set ↔ x ∈ set ∨ x ∈ l := by
  induction l with
  | nil => intro set x; simp
  | cons m rest ih =>
    intro set x
    rw [List.foldl_cons, ih, mem_setKey, List.mem_cons, or_assoc]

theorem nodup_foldl_setKey (l : List String) :
    ∀ set : List String, set.Nodup → (l.foldl setKey set).Nodup := by
  induction l with
  | nil => intro set h; exact h
  | cons m rest ih =>
    intro set h
    exact ih _ (nodup_setKey set m h)

theorem foldl_append_singleton (l : List String) :
    ∀ acc : List String, l.foldl (fun merged m => merged ++ [m]) acc = acc ++ l := by
  induction l with
  | nil => intro acc; simp
  | cons m rest ih => intro acc; rw [List.foldl_cons, ih]; simp

/-- The result of `mergeMixins` is a rearrangement of the keys of its map. -/
theorem mergeMixins_perm (range : MapRange) (buildMixins runMixins : List String) :
    (mergeMixins range buildMixins runMixins).Perm
      (runMixins.foldl setKey (buildMixins.foldl setKey [])) := by
  unfold mergeMixins
  simp only [foldl_append_singleton, List.nil_append]
  exact range.perm _

theorem mem_mergeMixins (range : MapRange) (buildMixins runMixins : List String) (m : String) :
    m ∈ mergeMixins range buildMixins runMixins ↔ m ∈ buildMixins ∨ m ∈ runMixins := by
  rw [(mergeMixins_perm range buildMixins runMixins).mem_iff, mem_foldl_setKey,
    mem_foldl_setKey]
  simp

/-- C6: for all lists of mixins and every iteration order of the map, the
result of `mergeMixins` has no duplicate, and a string is in the result exactly
when it is in the build mixins or in the run mixins. -/
theorem mergeMixins_union (range : MapRange) (buildMixins runMixins : List String) :
    (mergeMixins range buildMixins runMixins).Nodup ∧
    ∀ m : String,
      m ∈ mergeMixins range buildMixins runMixins ↔ m ∈ buildMixins ∨ m ∈ runMixins :=
  ⟨(mergeMixins_perm range buildMixins runMixins).nodup_iff.mpr
      (nodup_foldl_setKey _ _ (nodup_foldl_setKey _ _ List.nodup_nil)),
    mem_mergeMixins range buildMixins runMixins⟩

/-- C7: as sets, `mergeMixins A B` and `mergeMixins B A` are equal, and
`mergeMixins A A` is equal to `A`, whatever the iteration order of the map in
each call. -/
theorem mergeMixins_comm_idem (range range' : MapRange) (A B : List String) :
    (∀ m : String, m ∈ mergeMixins range A B ↔ m ∈ mergeMixins range' B A) ∧
    (∀ m : String, m ∈ mergeMixins range A A ↔ m ∈ A) := by
  constructor
  · intro m
    rw [mem_mergeMixins, mem_mergeMixins, or_comm]
  · intro m
    rw [mem_mergeMixins, or_self]

/-! ## Buildpack identity -/

example : validateBuildpack ⟨⟨⟨"bp.one", "1.2.3"⟩⟩⟩ "uri" "" "" = none := by decide
example : validateBuildpack ⟨⟨⟨"bp.one", "1.2.3"⟩⟩⟩ "uri" "bp.one" "1.2.4" ≠ none := by decide

/-- C8: `validateBuildpack` returns an error exactly when the expected ID is
non-empty and differs from the ID of the descriptor, or the expected version is
non-empty and differs from the version of the descriptor; with both
expectations empty every buildpack is accepted. -/
theorem validateBuildpack_iff (bp : Buildpack) (source expectedID expectedBPVersion : String) :
    ((∃ err, validateBuildpack bp source expectedID expectedBPVersion = some err) ↔
      ((expectedID ≠ "" ∧ bp.Descriptor.Info.ID ≠ expectedID) ∨
        (expectedBPVersion ≠ "" ∧ bp.Descriptor.Info.Version ≠ expectedBPVersion))) ∧
    validateBuildpack bp source "" "" = none := by
  constructor
  · unfold validateBuildpack
    by_cases h1 : expectedID ≠ "" ∧ bp.Descriptor.Info.ID ≠ expectedID
    · simp [h1]
    · by_cases h2 : expectedBPVersion ≠ "" ∧ bp.Descriptor.Info.Version ≠ expectedBPVersion
      · simp [h1, h2]
      · simp [h1, h2]
  · unfold validateBuildpack
    simp

/-! ## Lifecycle -/

example : (fetchLifecycle sampleClient ⟨"0.3.0", ""⟩ []).2 =
    [.Download "https://github.com/buildpack/lifecycle/releases/download/v0.3.0/lifecycle-v0.3.0+linux.x86-64.tgz"] := by
  decide
example : (fetchLifecycle sampleClient ⟨"", ""⟩ []).2 =
    [.Download "https://github.com/buildpack/lifecycle/releases/download/v0.4.0/lifecycle-v0.4.0+linux.x86-64.tgz"] := by
  decide
example : fetchLifecycle sampleClient ⟨"not-semver", ""⟩ [] =
    (.error (.Wrap (.External 2) "%s must be a valid semver" ["lifecycle.version"]), []) := by
  decide

/-- The only call `downloadLifecycle` makes is the download of its address. -/
theorem downloadLifecycle_trace (c : Client) (uri : String) (tr : Trace) :
    (downloadLifecycle c uri tr).2 = tr ++ [.Download uri] := by
  unfold downloadLifecycle
  split
  · rfl
  · split <;> rfl

theorem downloadLifecycle_ne_panic (c : Client) (uri : String) (tr : Trace) :
    (downloadLifecycle c uri tr).1 ≠ .panic := by
  unfold downloadLifecycle
  split
  · simp
  · split <;> simp

/-- With both a version and an address declared, `fetchLifecycle` returns an
error without any call. -/
theorem fetchLifecycle_both (c : Client) (config : LifecycleConfig) (tr : Trace)
    (hv : config.Version ≠ "") (hu : config.URI ≠ "") :
    fetchLifecycle c config tr =
      (.error (.Errorf "%s can only declare %s or %s, not both" ["lifecycle", "version", "uri"]),
        tr) := by
  unfold fetchLifecycle
  rw [if_pos ⟨hv, hu⟩]

/-- C9: the address `fetchLifecycle` downloads. With only `URI` set the one
call made is the download of `config.URI`; with only `Version` set and parsed
as `v` it is the download of the release template filled twice with
`v.String()`; with neither set it is the same template filled with the string
of the parsed default version, which is the default version itself when that
is written in canonical form. With a `Version` that does not parse,
`fetchLifecycle` returns an error and makes no call. -/
theorem fetchLifecycle_uri (c : Client) (config : LifecycleConfig) (tr : Trace) :
    (config.Version = "" → config.URI ≠ "" →
      (fetchLifecycle c config tr).2 = tr ++ [.Download config.URI]) ∧
    (∀ v : Version, config.Version ≠ "" → config.URI = "" →
      c.NewVersion config.Version = .ok v →
      (fetchLifecycle c config tr).2 = tr ++ [.Download
        ("https://github.com/buildpack/lifecycle/releases/download/v" ++ v.String ++
          "/lifecycle-v" ++ v.String ++ "+linux.x86-64.tgz")]) ∧
    (∀ v : Version, config.Version = "" → config.URI = "" →
      c.NewVersion c.DefaultLifecycleVersion = .ok v →
      (fetchLifecycle c config tr).2 = tr ++ [.Download
        ("https://github.com/buildpack/lifecycle/releases/download/v" ++ v.String ++
          "/lifecycle-v" ++ v.String ++ "+linux.x86-64.tgz")]) ∧
    (∀ v : Version, config.Version = "" → config.URI = "" →
      c.NewVersion c.DefaultLifecycleVersion = .ok v → v.String = c.DefaultLifecycleVersion →
      (fetchLifecycle c config tr).2 = tr ++ [.Download
        ("https://github.com/buildpack/lifecycle/releases/download/v" ++
          c.DefaultLifecycleVersion ++ "/lifecycle-v" ++ c.DefaultLifecycleVersion ++
          "+linux.x86-64.tgz")]) ∧
    (∀ err : Error, config.Version ≠ "" → c.NewVersion config.Version = .error err →
      (∃ e, (fetchLifecycle c config tr).1 = .error e) ∧ (fetchLifecycle c config tr).2 = tr) := by
  refine ⟨?_, ?_, ?_, ?_, ?_⟩
  · intro hv hu
    unfold fetchLifecycle
    simp only [hv, hu, ne_eq, not_true_eq_false, not_false_eq_true, false_and, if_false, if_true]
    exact downloadLifecycle_trace c _ tr
  · intro v hv hu hp
    unfold fetchLifecycle
    simp only [hv, hu, ne_eq, not_true_eq_false, not_false_eq_true, and_false, if_false, if_true,
      hp]
    exact downloadLifecycle_trace c _ tr
  · intro v hv hu hp
    unfold fetchLifecycle
    simp only [hv, hu, ne_eq, not_true_eq_false, and_false, if_false, hp]
    exact downloadLifecycle_trace c _ tr
  · intro v hv hu hp hcanon
    unfold fetchLifecycle
    simp only [hv, hu, ne_eq, not_true_eq_false, and_false, if_false, hp]
    rw [← hcanon]
    exact downloadLifecycle_trace c _ tr
  · intro err hv hp
    unfold fetchLifecycle
    by_cases hu : config.URI = ""
    · rw [if_neg (fun h => h.2 hu), if_pos hv, hp]
      exact ⟨⟨_, rfl⟩, rfl⟩
    · rw [if_pos ⟨hv, hu⟩]
      exact ⟨⟨_, rfl⟩, rfl⟩

/-- C9 at concrete lifecycle configs: an address alone, a version alone, nothing
declared (default version `0.4.0`), and a version that does not parse. -/
theorem fetchLifecycle_uri_witness :
    (fetchLifecycle sampleClient ⟨"", "file:///lifecycle.tgz"⟩ []).2 =
      [] ++ [.Download "file:///lifecycle.tgz"] ∧
    (fetchLifecycle sampleClient ⟨"0.3.0", ""⟩ []).2 = [] ++ [.Download
      ("https://github.com/buildpack/lifecycle/releases/download/v" ++ (Version.mk "0.3.0").String
        ++ "/lifecycle-v" ++ (Version.mk "0.3.0").String ++ "+linux.x86-64.tgz")] ∧
    (fetchLifecycle sampleClient ⟨"", ""⟩ []).2 = [] ++ [.Download
      ("https://github.com/buildpack/lifecycle/releases/download/v" ++ (Version.mk "0.4.0").String
        ++ "/lifecycle-v" ++ (Version.mk "0.4.0").String ++ "+linux.x86-64.tgz")] ∧
    (fetchLifecycle sampleClient ⟨"", ""⟩ []).2 = [] ++ [.Download
      ("https://github.com/buildpack/lifecycle/releases/download/v" ++
        sampleClient.DefaultLifecycleVersion ++ "/lifecycle-v" ++
        sampleClient.DefaultLifecycleVersion ++ "+linux.x86-64.tgz")] ∧
    ((∃ e, (fetchLifecycle sampleClient ⟨"not-semver", ""⟩ []).1 = .error e) ∧
      (fetchLifecycle sampleClient ⟨"not-semver", ""⟩ []).2 = []) :=
  ⟨(fetchLifecycle_uri sampleClient ⟨"", "file:///lifecycle.tgz"⟩ []).1 rfl (by decide),
   (fetchLifecycle_uri sampleClient ⟨"0.3.0", ""⟩ []).2.1 ⟨"0.3.0"⟩ (by decide) rfl rfl,
   (fetchLifecycle_uri sampleClient ⟨"", ""⟩ []).2.2.1 ⟨"0.4.0"⟩ rfl rfl rfl,
   (fetchLifecycle_uri sampleClient ⟨"", ""⟩ []).2.2.2.1 ⟨"0.4.0"⟩ rfl rfl rfl rfl,
   (fetchLifecycle_uri sampleClient ⟨"not-semver", ""⟩ []).2.2.2.2 (.External 2) (by decide) rfl⟩

/-! ## Occurrences of an event -/

theorem Occurs_nil (tr h : Trace) (e : Event) : Occurs tr [] h e ↔ False := by
  unfold Occurs
  simp

theorem Occurs_cons (tr h : Trace) (x e : Event) (evs : List Event) :
    Occurs tr (x :: evs) h e ↔ (x = e ∧ h = tr) ∨ Occurs (tr ++ [x]) evs h e := by
  unfold Occurs
  constructor
  · rintro ⟨pre, post, h1, h2⟩
    cases pre with
    | nil =>
      left
      simp only [List.nil_append, List.cons.injEq] at h1
      exact ⟨h1.1, by simpa using h2⟩
    | cons y pre =>
      right
      simp only [List.cons_append, List.cons.injEq] at h1
      refine ⟨pre, post, h1.2, ?_⟩
      rw [h2, h1.1]
      simp
  · rintro (⟨h1, h2⟩ | ⟨pre, post, h1, h2⟩)
    · exact ⟨[], evs, by simp [h1], by simp [h2]⟩
    · exact ⟨x :: pre, post, by simp [h1], by simp [h2]⟩

theorem Occurs_append (tr h : Trace) (e : Event) (evs1 evs2 : List Event) :
    Occurs tr (evs1 ++ evs2) h e ↔ Occurs tr evs1 h e ∨ Occurs (tr ++ evs1) evs2 h e := by
  induction evs1 generalizing tr with
  | nil => simp [Occurs_nil]
  | cons x evs1 ih =>
    rw [List.cons_append, Occurs_cons, Occurs_cons, ih, or_assoc]
    simp

theorem Occurs.mem {tr h : Trace} {e : Event} {evs : List Event} (ho : Occurs tr evs h e) :
    e ∈ evs := by
  obtain ⟨pre, post, h1, _⟩ := ho
  rw [h1]
  simp

/-! ## The run image and its mirrors -/

/-- What one pass of the first loop of `validateRunImageConfig` does for the
candidate `i`: the calls it makes, and how its result follows from the answers
to these calls. -/
theorem fetchCandidate_spec (c : Client) (publish : Bool) (i : String) (tr : Trace) :
    ∃ evs, (fetchCandidate c publish i tr).2 = tr ++ evs ∧
      (∀ e ∈ evs, (∃ d, e = .Fetch i d false) ∨ ∃ f a, e = .Warnf f a) ∧
      (publish = true → evs.filter Event.isFetch = [.Fetch i false false]) ∧
      (publish = false → evs.filter Event.isDaemonFetch = [.Fetch i true false]) ∧
      (publish = false → ∀ h j, Occurs tr evs h (.Fetch j false false) →
        h = tr ++ [.Fetch j true false] ∧
          ∃ err, c.Fetch tr j true false = .error err ∧ err.Cause = .ErrNotFound) ∧
      (∀ img, (fetchCandidate c publish i tr).1 = .ok (some img) ↔
        ∃ h d, Occurs tr evs h (.Fetch i d false) ∧ c.Fetch h i d false = .ok img) ∧
      (∀ err, (fetchCandidate c publish i tr).1 = .error err →
        ∃ pre d, evs = pre ++ [.Fetch i d false] ∧
          c.Fetch (tr ++ pre) i d false = .error err ∧ err.Cause ≠ .ErrNotFound) := by
  cases publish with
  | true =>
    simp only [fetchCandidate, fetchFromRegistry, Bool.not_true, Bool.false_eq_true, if_false]
    cases hr : c.Fetch tr i false false with
    | error err =>
      by_cases hc : err.Cause = .ErrNotFound
      · refine ⟨[.Fetch i false false, .Warnf "run image %s is not accessible" [i]], ?_⟩
        simp [hc, Occurs_cons, Occurs_nil, Event.isFetch, hr]
      · refine ⟨[.Fetch i false false], ?_⟩
        simp only [hc, ne_eq, not_false_eq_true, if_true]
        refine ⟨trivial, by simp, by simp [Event.isFetch], by simp, by simp, ?_, ?_⟩
        · simp [Occurs_cons, Occurs_nil, hr]
        · intro err' he
          simp only [Except.error.injEq] at he
          subst he
          exact ⟨[], false, by simp, by simpa using hr, hc⟩
    | ok img =>
      refine ⟨[.Fetch i false false], ?_⟩
      simp [Occurs_cons, Occurs_nil, Event.isFetch, hr]
  | false =>
    simp only [fetchCandidate, fetchFromRegistry, Bool.not_false, if_true]
    cases hd : c.Fetch tr i true false with
    | ok img =>
      refine ⟨[.Fetch i true false], ?_⟩
      simp [Occurs_cons, Occurs_nil, Event.isDaemonFetch, hd]
    | error errd =>
      by_cases hcd : errd.Cause = .ErrNotFound
      · simp only [hcd, ne_eq, not_true_eq_false, if_false]
        cases hr : c.Fetch (tr ++ [.Fetch i true false]) i false false with
        | ok img =>
          refine ⟨[.Fetch i true false, .Fetch i false false], ?_⟩
          simp [Occurs_cons, Occurs_nil, Event.isDaemonFetch, hd, hr, hcd, exists_or, forall_and]
        | error err =>
          by_cases hc : err.Cause = .ErrNotFound
          · refine ⟨[.Fetch i true false, .Fetch i false false,
              .Warnf "run image %s is not accessible" [i]], ?_⟩
            simp [Occurs_cons, Occurs_nil, Event.isDaemonFetch, hd, hr, hcd, hc, exists_or, forall_and]
          · refine ⟨[.Fetch i true false, .Fetch i false false], ?_⟩
            simp only [hc, ne_eq, not_false_eq_true, if_true]
            refine ⟨by simp, by simp, by simp, by simp [Event.isDaemonFetch], ?_, ?_, ?_⟩
            · simp [Occurs_cons, Occurs_nil, hd, hcd]
            · simp [Occurs_cons, Occurs_nil, hd, hr, exists_or, forall_and]
            · intro err' he
              simp only [Except.error.injEq] at he
              subst he
              exact ⟨[.Fetch i true false], false, by simp, hr, hc⟩
      · refine ⟨[.Fetch i true false], ?_⟩
        simp only [hcd, ne_eq, not_false_eq_true, if_true]
        refine ⟨trivial, by simp, by simp, by simp [Event.isDaemonFetch], ?_, ?_, ?_⟩
        · simp [Occurs_cons, Occurs_nil]
        · simp [Occurs_cons, Occurs_nil, hd]
        · intro err' he
          simp only [Except.error.injEq] at he
          subst he
          exact ⟨[], true, by simp, by simpa using hd, hcd⟩

/-- In the events of one pass of the loop for candidate `i`, every fetch is a
fetch of `i`. -/
theorem fetch_of_candidate {i j : String} {d : Bool} {tr h : Trace} {evs : List Event}
    (hk : ∀ e ∈ evs, (∃ d, e = Event.Fetch i d false) ∨ ∃ f a, e = Event.Warnf f a)
    (ho : Occurs tr evs h (.Fetch j d false)) : j = i := by
  rcases hk _ ho.mem with ⟨d', hd'⟩ | ⟨f, a, hfa⟩
  · simp only [Event.Fetch.injEq] at hd'
    exact hd'.1
  · simp at hfa

/-- What the first loop of `validateRunImageConfig` does: it visits a prefix of
the candidates, the whole list unless a fetch fails with an error that is not
`ErrNotFound`; the images it collects are those its fetches found. -/
theorem fetchRunImages_spec (c : Client) (publish : Bool) :
    ∀ (cands : List String) (acc : List Image) (tr : Trace), ∃ visited evs,
      (fetchRunImages c publish cands acc tr).2 = tr ++ evs ∧
      visited <+: cands ∧
      (∀ e ∈ evs, (∃ i d, i ∈ cands ∧ e = .Fetch i d false) ∨ ∃ f a, e = .Warnf f a) ∧
      (publish = true →
        evs.filter Event.isFetch = visited.map (fun i => .Fetch i false false)) ∧
      (publish = false →
        evs.filter Event.isDaemonFetch = visited.map (fun i => .Fetch i true false)) ∧
      (publish = false → ∀ h j, Occurs tr evs h (.Fetch j false false) →
        ∃ h' err, h = h' ++ [.Fetch j true false] ∧ (∃ pre, h' = tr ++ pre) ∧
          c.Fetch h' j true false = .error err ∧ err.Cause = .ErrNotFound) ∧
      ((visited = cands ∧ ∃ found, (fetchRunImages c publish cands acc tr).1 = .ok (acc ++ found) ∧
          ∀ img, img ∈ found ↔
            ∃ h j d, Occurs tr evs h (.Fetch j d false) ∧ c.Fetch h j d false = .ok img) ∨
        (∃ pre j d err, evs = pre ++ [.Fetch j d false] ∧
          c.Fetch (tr ++ pre) j d false = .error err ∧ err.Cause ≠ .ErrNotFound ∧
          (fetchRunImages c publish cands acc tr).1 = .error err)) := by
  intro cands
  induction cands with
  | nil =>
    intro acc tr
    refine ⟨[], [], by simp [fetchRunImages], List.prefix_refl _, by simp, by simp, by simp,
      by simp [Occurs_nil], Or.inl ⟨rfl, [], by simp [fetchRunImages], by simp [Occurs_nil]⟩⟩
  | cons i rest ih =>
    intro acc tr
    obtain ⟨evs1, ht1, hk1, hp1, hd1, hr1, hok1, herr1⟩ := fetchCandidate_spec c publish i tr
    rcases hfc : fetchCandidate c publish i tr with ⟨r, tr1⟩
    rw [hfc] at ht1 hok1 herr1
    simp only at ht1 hok1 herr1
    subst ht1
    have hk1' : ∀ e ∈ evs1,
        (∃ j d, j ∈ i :: rest ∧ e = Event.Fetch j d false) ∨ ∃ f a, e = Event.Warnf f a := by
      intro e he
      rcases hk1 e he with ⟨d, hd⟩ | hw
      · exact Or.inl ⟨i, d, List.mem_cons_self _ _, hd⟩
      · exact Or.inr hw
    have hfirst : ∀ h j, Occurs tr evs1 h (.Fetch j false false) → publish = false →
        ∃ h' err, h = h' ++ [.Fetch j true false] ∧ (∃ pre, h' = tr ++ pre) ∧
          c.Fetch h' j true false = .error err ∧ err.Cause = .ErrNotFound := by
      intro h j ho hp
      obtain ⟨h1, err, h2, h3⟩ := hr1 hp h j ho
      exact ⟨tr, err, h1, ⟨[], by simp⟩, h2, h3⟩
    cases r with
    | error err =>
      obtain ⟨pre, d, h1, h2, h3⟩ := herr1 err rfl
      refine ⟨[i], evs1, by simp [fetchRunImages, hfc], by simp, hk1', ?_, ?_, ?_, ?_⟩
      · intro hp; simpa using hp1 hp
      · intro hp; simpa using hd1 hp
      · intro hp h j ho; exact hfirst h j ho hp
      · exact Or.inr ⟨pre, i, d, err, h1, h2, h3, by simp [fetchRunImages, hfc]⟩
    | ok o =>
      have hrest : ∀ acc', ∃ visited evs2,
          (fetchRunImages c publish rest acc' (tr ++ evs1)).2 = tr ++ (evs1 ++ evs2) ∧
          visited <+: i :: rest ∧
          (∀ e ∈ evs1 ++ evs2, (∃ j d, j ∈ i :: rest ∧ e = Event.Fetch j d false) ∨
            ∃ f a, e = Event.Warnf f a) ∧
          (publish = true → (evs1 ++ evs2).filter Event.isFetch =
            visited.map (fun i => .Fetch i false false)) ∧
          (publish = false → (evs1 ++ evs2).filter Event.isDaemonFetch =
            visited.map (fun i => .Fetch i true false)) ∧
          (publish = false → ∀ h j, Occurs tr (evs1 ++ evs2) h (.Fetch j false false) →
            ∃ h' err, h = h' ++ [.Fetch j true false] ∧ (∃ pre, h' = tr ++ pre) ∧
              c.Fetch h' j true false = .error err ∧ err.Cause = .ErrNotFound) ∧
          ((visited = i :: rest ∧ ∃ found,
              (fetchRunImages c publish rest acc' (tr ++ evs1)).1 = .ok (acc' ++ found) ∧
              ∀ img, img ∈ found ↔
                ∃ h j d, Occurs (tr ++ evs1) evs2 h (.Fetch j d false) ∧
                  c.Fetch h j d false = .ok img) ∨
            (∃ pre j d err, evs1 ++ evs2 = pre ++ [.Fetch j d false] ∧
              c.Fetch (tr ++ pre) j d false = .error err ∧ err.Cause ≠ .ErrNotFound ∧
              (fetchRunImages c publish rest acc' (tr ++ evs1)).1 = .error err)) := by
        intro acc'
        obtain ⟨visited, evs2, ht2, hv2, hk2, hp2, hd2, hr2, hres2⟩ := ih acc' (tr ++ evs1)
        refine ⟨i :: visited, evs2, by rw [ht2, List.append_assoc], ?_, ?_, ?_, ?_, ?_, ?_⟩
        · exact List.prefix_cons_inj i |>.mpr hv2
        · intro e he
          rcases List.mem_append.mp he with he | he
          · exact hk1' e he
          · rcases hk2 e he with ⟨j, d, hj, hjd⟩ | hw
            · exact Or.inl ⟨j, d, List.mem_cons_of_mem _ hj, hjd⟩
            · exact Or.inr hw
        · intro hp
          rw [List.filter_append, hp1 hp, hp2 hp]
          simp
        · intro hp
          rw [List.filter_append, hd1 hp, hd2 hp]
          simp
        · intro hp h j ho
          rcases (Occurs_append tr h _ evs1 evs2).mp ho with ho | ho
          · exact hfirst h j ho hp
          · obtain ⟨h', err, h1, ⟨pre, h2⟩, h3, h4⟩ := hr2 hp h j ho
            exact ⟨h', err, h1, ⟨evs1 ++ pre, by rw [h2, List.append_assoc]⟩, h3, h4⟩
        · rcases hres2 with ⟨hv, found, hf1, hf2⟩ | ⟨pre, j, d, err, h1, h2, h3, h4⟩
          · exact Or.inl ⟨by rw [hv], found, hf1, hf2⟩
          · refine Or.inr ⟨evs1 ++ pre, j, d, err, by rw [h1, List.append_assoc], ?_, h3, h4⟩
            rw [← List.append_assoc]
            exact h2
      cases o with
      | none =>
        obtain ⟨visited, evs2, ht, hv, hk, hp, hd, hr, hres⟩ := hrest acc
        have hcall : fetchRunImages c publish (i :: rest) acc tr =
            fetchRunImages c publish rest acc (tr ++ evs1) := by
          simp [fetchRunImages, hfc]
        rw [hcall]
        refine ⟨visited, evs1 ++ evs2, ht, hv, hk, hp, hd, hr, ?_⟩
        rcases hres with ⟨hv', found, hf1, hf2⟩ | hres
        · refine Or.inl ⟨hv', found, hf1, ?_⟩
          intro img
          rw [hf2 img]
          constructor
          · rintro ⟨h, j, d, ho, hf⟩
            exact ⟨h, j, d, (Occurs_append tr h _ evs1 evs2).mpr (Or.inr ho), hf⟩
          · rintro ⟨h, j, d, ho, hf⟩
            rcases (Occurs_append tr h _ evs1 evs2).mp ho with ho | ho
            · have hj := fetch_of_candidate hk1 ho
              subst hj
              have := (hok1 img).mpr ⟨h, d, ho, hf⟩
              simp at this
            · exact ⟨h, j, d, ho, hf⟩
        · exact Or.inr hres
      | some img0 =>
        obtain ⟨visited, evs2, ht, hv, hk, hp, hd, hr, hres⟩ := hrest (acc ++ [img0])
        have hcall : fetchRunImages c publish (i :: rest) acc tr =
            fetchRunImages c publish rest (acc ++ [img0]) (tr ++ evs1) := by
          simp [fetchRunImages, hfc]
        rw [hcall]
        refine ⟨visited, evs1 ++ evs2, ht, hv, hk, hp, hd, hr, ?_⟩
        rcases hres with ⟨hv', found, hf1, hf2⟩ | hres
        · refine Or.inl ⟨hv', img0 :: found, by simpa using hf1, ?_⟩
          intro img
          rw [List.mem_cons, hf2 img]
          constructor
          · rintro (h0 | ⟨h, j, d, ho, hf⟩)
            · subst h0
              obtain ⟨h, d, ho, hf⟩ := (hok1 img).mp rfl
              exact ⟨h, i, d, (Occurs_append tr h _ evs1 evs2).mpr (Or.inl ho), hf⟩
            · exact ⟨h, j, d, (Occurs_append tr h _ evs1 evs2).mpr (Or.inr ho), hf⟩
          · rintro ⟨h, j, d, ho, hf⟩
            rcases (Occurs_append tr h _ evs1 evs2).mp ho with ho | ho
            · have hj := fetch_of_candidate hk1 ho
              subst hj
              have := (hok1 img).mpr ⟨h, d, ho, hf⟩
              simp only [Except.ok.injEq, Option.some.injEq] at this
              exact Or.inl this.symm
            · exact Or.inr ⟨h, j, d, ho, hf⟩
        · exact Or.inr hres

theorem OccursBefore_nil (tr h : Trace) (e : Event) (post : List Event) :
    OccursBefore tr [] h e post ↔ False := by
  unfold OccursBefore
  simp

theorem OccursBefore_cons (tr h : Trace) (x e : Event) (evs post : List Event) :
    OccursBefore tr (x :: evs) h e post ↔
      (x = e ∧ h = tr ∧ post = evs) ∨ OccursBefore (tr ++ [x]) evs h e post := by
  unfold OccursBefore
  constructor
  · rintro ⟨pre, h1, h2⟩
    cases pre with
    | nil =>
      left
      simp only [List.nil_append, List.cons.injEq] at h1
      exact ⟨h1.1, by simpa using h2, h1.2.symm⟩
    | cons y pre =>
      right
      simp only [List.cons_append, List.cons.injEq] at h1
      refine ⟨pre, h1.2, ?_⟩
      rw [h2, h1.1]
      simp
  · rintro (⟨h1, h2, h3⟩ | ⟨pre, h1, h2⟩)
    · exact ⟨[], by simp [h1, h3], by simp [h2]⟩
    · exact ⟨x :: pre, by simp [h1], by simp [h2]⟩

theorem OccursBefore_append (tr h : Trace) (e : Event) (evs1 evs2 post : List Event) :
    OccursBefore tr (evs1 ++ evs2) h e post ↔
      (∃ post1, OccursBefore tr evs1 h e post1 ∧ post = post1 ++ evs2) ∨
        OccursBefore (tr ++ evs1) evs2 h e post := by
  induction evs1 generalizing tr with
  | nil => simp [OccursBefore_nil]
  | cons x evs1 ih =>
    rw [List.cons_append, OccursBefore_cons, ih]
    simp only [OccursBefore_cons, List.append_assoc, List.singleton_append]
    constructor
    · rintro (⟨h1, h2, h3⟩ | ⟨post1, h1, h2⟩ | h1)
      · exact Or.inl ⟨evs1, Or.inl ⟨h1, h2, rfl⟩, h3⟩
      · exact Or.inl ⟨post1, Or.inr h1, h2⟩
      · exact Or.inr h1
    · rintro (⟨post1, (⟨h1, h2, h3⟩ | h1), h4⟩ | h1)
      · exact Or.inl ⟨h1, h2, by rw [h4, h3]⟩
      · exact Or.inr (Or.inl ⟨post1, h1, h4⟩)
      · exact Or.inr (Or.inr h1)

/-- With an image fetcher whose fetches either succeed or report not-found,
the first loop of `validateRunImageConfig` does not fail, and the images it
collects are the accepted candidates of the specification. -/
theorem fetchRunImages_accepted (c : Client) (publish : Bool)
    (hF : ∀ h name d err, c.Fetch h name d false = .error err → err.Cause = .ErrNotFound) :
    ∀ (cands : List String) (acc : List Image) (tr : Trace),
      (fetchRunImages c publish cands acc tr).1 =
        .ok (acc ++ acceptedCandidates c publish cands tr) := by
  intro cands
  induction cands with
  | nil =>
    intro acc tr
    simp [fetchRunImages, acceptedCandidates]
  | cons i rest ih =>
    intro acc tr
    cases publish with
    | true =>
      simp only [fetchRunImages, fetchCandidate, fetchFromRegistry, acceptedCandidates,
        Bool.not_true, Bool.false_eq_true, if_false]
      cases hr : c.Fetch tr i false false with
      | error err =>
        simp only [hF _ _ _ _ hr, ne_eq, not_true_eq_false, if_false]
        rw [ih]
      | ok img =>
        simp only []
        rw [ih]
        simp
    | false =>
      simp only [fetchRunImages, fetchCandidate, fetchFromRegistry, acceptedCandidates,
        Bool.not_false, if_true]
      cases hd : c.Fetch tr i true false with
      | ok img =>
        simp only []
        rw [ih]
        simp
      | error errd =>
        simp only [hF _ _ _ _ hd, ne_eq, not_true_eq_false, if_false]
        cases hr : c.Fetch (tr ++ [.Fetch i true false]) i false false with
        | error err =>
          simp only [hF _ _ _ _ hr, ne_eq, not_true_eq_false, if_false, List.append_assoc,
            List.cons_append, List.nil_append]
          rw [ih]
        | ok img =>
          simp only [List.append_assoc, List.cons_append, List.nil_append]
          rw [ih]
          simp

/-- In one pass of the first loop of `validateRunImageConfig`, a fetch that
fails with an error other than not-found is the last call and its error is the
result; and when not publishing, a daemon fetch that reports not-found is
followed at once by the registry fetch of the same candidate. -/
theorem fetchCandidate_ends (c : Client) (publish : Bool) (i : String) (tr : Trace)
    (evs : List Event) (ht : (fetchCandidate c publish i tr).2 = tr ++ evs) :
    (∀ h j d err post, OccursBefore tr evs h (.Fetch j d false) post →
      c.Fetch h j d false = .error err → err.Cause ≠ .ErrNotFound →
      post = [] ∧ (fetchCandidate c publish i tr).1 = .error err) ∧
    (publish = false → ∀ h j err post, OccursBefore tr evs h (.Fetch j true false) post →
      c.Fetch h j true false = .error err → err.Cause = .ErrNotFound →
      ∃ post', post = .Fetch j false false :: post') := by
  cases publish with
  | true =>
    simp only [fetchCandidate, fetchFromRegistry, Bool.not_true, Bool.false_eq_true, if_false]
      at ht ⊢
    cases hr : c.Fetch tr i false false with
    | error err =>
      rw [hr] at ht
      by_cases hc : err.Cause = .ErrNotFound
      · simp only [hc, ne_eq, not_true_eq_false, if_false] at ht ⊢
        have hevs := (List.append_cancel_left ht).symm
        subst hevs
        refine ⟨?_, by simp⟩
        intro h j d err' post ho hf hne
        simp only [OccursBefore_cons, OccursBefore_nil, Event.Fetch.injEq, or_false,
          reduceCtorEq, false_and, false_or] at ho
        obtain ⟨⟨rfl, rfl, _⟩, rfl, _⟩ := ho
        rw [hr] at hf
        simp only [Except.error.injEq] at hf
        subst hf
        exact absurd hc hne
      · simp only [hc, ne_eq, not_false_eq_true, if_true] at ht ⊢
        have hevs := (List.append_cancel_left ht).symm
        subst hevs
        refine ⟨?_, by simp⟩
        intro h j d err' post ho hf hne
        simp only [OccursBefore_cons, OccursBefore_nil, Event.Fetch.injEq, or_false] at ho
        obtain ⟨⟨rfl, rfl, _⟩, rfl, rfl⟩ := ho
        rw [hr] at hf
        simp only [Except.error.injEq] at hf
        subst hf
        exact ⟨rfl, rfl⟩
    | ok img =>
      rw [hr] at ht
      simp only at ht ⊢
      have hevs := (List.append_cancel_left ht).symm
      subst hevs
      refine ⟨?_, by simp⟩
      intro h j d err' post ho hf hne
      simp only [OccursBefore_cons, OccursBefore_nil, Event.Fetch.injEq, or_false] at ho
      obtain ⟨⟨rfl, rfl, _⟩, rfl, rfl⟩ := ho
      rw [hr] at hf
      simp at hf
  | false =>
    simp only [fetchCandidate, fetchFromRegistry, Bool.not_false, if_true] at ht ⊢
    cases hd : c.Fetch tr i true false with
    | ok img =>
      rw [hd] at ht
      simp only at ht ⊢
      have hevs := (List.append_cancel_left ht).symm
      subst hevs
      constructor
      · intro h j d err' post ho hf hne
        rw [OccursBefore_cons] at ho
        rcases ho with ⟨he, rfl, rfl⟩ | ho
        · cases he
          rw [hd] at hf
          simp at hf
        · exact ((OccursBefore_nil _ _ _ _).mp ho).elim
      · intro _ h j err' post ho hf hne
        rw [OccursBefore_cons] at ho
        rcases ho with ⟨he, rfl, rfl⟩ | ho
        · cases he
          rw [hd] at hf
          simp at hf
        · exact ((OccursBefore_nil _ _ _ _).mp ho).elim
    | error errd =>
      rw [hd] at ht
      by_cases hcd : errd.Cause = .ErrNotFound
      · simp only [hcd, ne_eq, not_true_eq_false, if_false] at ht ⊢
        cases hr : c.Fetch (tr ++ [.Fetch i true false]) i false false with
        | ok img =>
          rw [hr] at ht
          simp only [List.append_assoc, List.cons_append, List.nil_append] at ht ⊢
          have hevs := (List.append_cancel_left ht).symm
          subst hevs
          constructor
          · intro h j d err' post ho hf hne
            rw [OccursBefore_cons] at ho
            rcases ho with ⟨he, rfl, rfl⟩ | ho
            · cases he
              rw [hd] at hf
              simp only [Except.error.injEq] at hf
              subst hf
              exact absurd hcd hne
            · rw [OccursBefore_cons] at ho
              rcases ho with ⟨he, rfl, rfl⟩ | ho
              · cases he
                rw [hr] at hf
                simp at hf
              · exact ((OccursBefore_nil _ _ _ _).mp ho).elim
          · intro _ h j err' post ho hf hne
            rw [OccursBefore_cons] at ho
            rcases ho with ⟨he, rfl, rfl⟩ | ho
            · cases he
              exact ⟨[], rfl⟩
            · rw [OccursBefore_cons] at ho
              rcases ho with ⟨he, rfl, rfl⟩ | ho
              · cases he
              · exact ((OccursBefore_nil _ _ _ _).mp ho).elim
        | error err =>
          rw [hr] at ht
          by_cases hc : err.Cause = .ErrNotFound
          · simp only [hc, ne_eq, not_true_eq_false, if_false, List.append_assoc,
              List.cons_append, List.nil_append] at ht ⊢
            have hevs := (List.append_cancel_left ht).symm
            subst hevs
            constructor
            · intro h j d err' post ho hf hne
              rw [OccursBefore_cons] at ho
              rcases ho with ⟨he, rfl, rfl⟩ | ho
              · cases he
                rw [hd] at hf
                simp only [Except.error.injEq] at hf
                subst hf
                exact absurd hcd hne
              · rw [OccursBefore_cons] at ho
                rcases ho with ⟨he, rfl, rfl⟩ | ho
                · cases he
                  rw [hr] at hf
                  simp only [Except.error.injEq] at hf
                  subst hf
                  exact absurd hc hne
                · rw [OccursBefore_cons] at ho
                  rcases ho with ⟨he, rfl, rfl⟩ | ho
                  · cases he
                  · exact ((OccursBefore_nil _ _ _ _).mp ho).elim
            · intro _ h j err' post ho hf hne
              rw [OccursBefore_cons] at ho
              rcases ho with ⟨he, rfl, rfl⟩ | ho
              · cases he
                exact ⟨_, rfl⟩
              · rw [OccursBefore_cons] at ho
                rcases ho with ⟨he, rfl, rfl⟩ | ho
                · cases he
                · rw [OccursBefore_cons] at ho
                  rcases ho with ⟨he, rfl, rfl⟩ | ho
                  · cases he
                  · exact ((OccursBefore_nil _ _ _ _).mp ho).elim
          · simp only [hc, ne_eq, not_false_eq_true, if_true, List.append_assoc,
              List.cons_append, List.nil_append] at ht ⊢
            have hevs := (List.append_cancel_left ht).symm
            subst hevs
            constructor
            · intro h j d err' post ho hf hne
              rw [OccursBefore_cons] at ho
              rcases ho with ⟨he, rfl, rfl⟩ | ho
              · cases he
                rw [hd] at hf
                simp only [Except.error.injEq] at hf
                subst hf
                exact absurd hcd hne
              · rw [OccursBefore_cons] at ho
                rcases ho with ⟨he, rfl, rfl⟩ | ho
                · cases he
                  rw [hr] at hf
                  simp only [Except.error.injEq] at hf
                  subst hf
                  exact ⟨rfl, rfl⟩
                · exact ((OccursBefore_nil _ _ _ _).mp ho).elim
            · intro _ h j err' post ho hf hne
              rw [OccursBefore_cons] at ho
              rcases ho with ⟨he, rfl, rfl⟩ | ho
              · cases he
                exact ⟨_, rfl⟩
              · rw [OccursBefore_cons] at ho
                rcases ho with ⟨he, rfl, rfl⟩ | ho
                · cases he
                · exact ((OccursBefore_nil _ _ _ _).mp ho).elim
      · simp only [hcd, ne_eq, not_false_eq_true, if_true] at ht ⊢
        have hevs := (List.append_cancel_left ht).symm
        subst hevs
        constructor
        · intro h j d err' post ho hf hne
          rw [OccursBefore_cons] at ho
          rcases ho with ⟨he, rfl, rfl⟩ | ho
          · cases he
            rw [hd] at hf
            simp only [Except.error.injEq] at hf
            subst hf
            exact ⟨rfl, rfl⟩
          · exact ((OccursBefore_nil _ _ _ _).mp ho).elim
        · intro _ h j err' post ho hf hne
          rw [OccursBefore_cons] at ho
          rcases ho with ⟨he, rfl, rfl⟩ | ho
          · cases he
            rw [hd] at hf
            simp only [Except.error.injEq] at hf
            subst hf
            exact absurd hne hcd
          · exact ((OccursBefore_nil _ _ _ _).mp ho).elim

/-- In the first loop of `validateRunImageConfig`, a fetch that fails with an
error other than not-found is the last call of the loop and its error is the
result of the loop; and when not publishing, a daemon fetch that reports
not-found is followed at once by the registry fetch of the same candidate. -/
theorem fetchRunImages_ends (c : Client) (publish : Bool) :
    ∀ (cands : List String) (acc : List Image) (tr : Trace) (evs : List Event),
      (fetchRunImages c publish cands acc tr).2 = tr ++ evs →
      (∀ h j d err post, OccursBefore tr evs h (.Fetch j d false) post →
        c.Fetch h j d false = .error err → err.Cause ≠ .ErrNotFound →
        post = [] ∧ (fetchRunImages c publish cands acc tr).1 = .error err) ∧
      (publish = false → ∀ h j err post, OccursBefore tr evs h (.Fetch j true false) post →
        c.Fetch h j true false = .error err → err.Cause = .ErrNotFound →
        ∃ post', post = .Fetch j false false :: post') := by
  intro cands
  induction cands with
  | nil =>
    intro acc tr evs ht
    simp only [fetchRunImages] at ht
    have hevs : evs = [] := by
      have := List.append_cancel_left (ht.symm.trans (List.append_nil tr).symm)
      exact this
    subst hevs
    simp [OccursBefore_nil]
  | cons i rest ih =>
    intro acc tr evs ht
    obtain ⟨evs1, ht1, _⟩ := fetchCandidate_spec c publish i tr
    obtain ⟨hs1, hs2⟩ := fetchCandidate_ends c publish i tr evs1 ht1
    rcases hfc : fetchCandidate c publish i tr with ⟨r, tr1⟩
    rw [hfc] at ht1 hs1
    simp only at ht1 hs1
    subst ht1
    cases r with
    | error err0 =>
      have hcall : fetchRunImages c publish (i :: rest) acc tr = (.error err0, tr ++ evs1) := by
        simp [fetchRunImages, hfc]
      rw [hcall] at ht ⊢
      have hevs := (List.append_cancel_left ht).symm
      subst hevs
      refine ⟨fun h j d err post ho hf hne => ?_, hs2⟩
      obtain ⟨h1, h2⟩ := hs1 h j d err post ho hf hne
      simp only [Except.error.injEq] at h2
      subst h2
      exact ⟨h1, rfl⟩
    | ok o =>
      have hrest : ∀ acc', (fetchRunImages c publish rest acc' (tr ++ evs1)).2 = tr ++ evs →
          (∀ h j d err post, OccursBefore tr evs h (.Fetch j d false) post →
            c.Fetch h j d false = .error err → err.Cause ≠ .ErrNotFound →
            post = [] ∧ (fetchRunImages c publish rest acc' (tr ++ evs1)).1 = .error err) ∧
          (publish = false → ∀ h j err post,
            OccursBefore tr evs h (.Fetch j true false) post →
            c.Fetch h j true false = .error err → err.Cause = .ErrNotFound →
            ∃ post', post = .Fetch j false false :: post') := by
        intro acc' ht'
        obtain ⟨_, evs2, ht2, _⟩ := fetchRunImages_spec c publish rest acc' (tr ++ evs1)
        have hevs : evs = evs1 ++ evs2 := by
          rw [ht2, List.append_assoc] at ht'
          exact (List.append_cancel_left ht').symm
        subst hevs
        obtain ⟨hi1, hi2⟩ := ih acc' (tr ++ evs1) evs2 ht2
        constructor
        · intro h j d err post ho hf hne
          rcases (OccursBefore_append tr h _ evs1 evs2 post).mp ho with ⟨post1, ho1, _⟩ | ho2
          · have := (hs1 h j d err post1 ho1 hf hne).2
            simp at this
          · exact hi1 h j d err post ho2 hf hne
        · intro hp h j err post ho hf hc
          rcases (OccursBefore_append tr h _ evs1 evs2 post).mp ho with ⟨post1, ho1, hpost⟩ | ho2
          · obtain ⟨post', hpost'⟩ := hs2 hp h j err post1 ho1 hf hc
            exact ⟨post' ++ evs2, by rw [hpost, hpost']; rfl⟩
          · exact hi2 hp h j err post ho2 hf hc
      cases o with
      | none =>
        have hcall : fetchRunImages c publish (i :: rest) acc tr =
            fetchRunImages c publish rest acc (tr ++ evs1) := by
          simp [fetchRunImages, hfc]
        rw [hcall] at ht ⊢
        exact hrest acc ht
      | some img =>
        have hcall : fetchRunImages c publish (i :: rest) acc tr =
            fetchRunImages c publish rest (acc ++ [img]) (tr ++ evs1) := by
          simp [fetchRunImages, hfc]
        rw [hcall] at ht ⊢
        exact hrest (acc ++ [img]) ht

example : validateRunImageConfig sampleClient publishOptions [] =
    (none, [.Fetch "some/run" false false, .Fetch "example.com/some/run" false false]) := by
  decide
example : validateRunImageConfig sampleClient otherStackOptions [] =
    (some (.Errorf "stack %s from builder config is incompatible with stack %s from run image %s"
      ["other.stack", "some.stack", "some/run"]),
     [.Fetch "some/run" true false, .Fetch "some/run" false false]) := by
  decide

/-- When every label read succeeds, the second loop of
`validateRunImageConfig` fails exactly when one image carries another stack. -/
theorem checkStackIDs_iff (stackID : String) (imgs : List Image)
    (hL : ∀ img ∈ imgs, ∃ id, img.Label "io.buildpacks.stack.id" = .ok id) :
    (∃ err, checkStackIDs stackID imgs = some err) ↔
      ∃ img ∈ imgs, ∃ id, img.Label "io.buildpacks.stack.id" = .ok id ∧ id ≠ stackID := by
  induction imgs with
  | nil => simp [checkStackIDs]
  | cons img rest ih =>
    obtain ⟨id, hid⟩ := hL img (List.mem_cons_self _ _)
    have ih' := ih (fun img' h' => hL img' (List.mem_cons_of_mem _ h'))
    simp only [checkStackIDs, hid]
    by_cases hne : id = stackID
    · simp only [hne, ne_eq, not_true_eq_false, if_false, List.mem_cons, exists_eq_or_imp]
      rw [ih']
      simp [hid, hne]
    · simp only [ne_eq, hne, not_false_eq_true, if_true, List.mem_cons, exists_eq_or_imp]
      constructor
      · intro _
        exact Or.inl ⟨id, hid, hne⟩
      · intro _
        exact ⟨_, rfl⟩

/-- C4: with an image fetcher whose fetches either succeed or report not-found
and whose images have a readable stack label, `validateRunImageConfig` returns
an error exactly when one of the accepted candidates of the specification (the
run image or a mirror, found in the daemon when not publishing and else in the
registry) carries a stack label different from `Stack.ID`. Candidates that are
not found are dropped: when no candidate is found, nothing is accepted and
validation passes. The accepted candidates are the images found by the fetches
`validateRunImageConfig` makes. -/
theorem validateRunImageConfig_error_iff (c : Client) (opts : CreateBuilderOptions) (tr : Trace)
    (hF : ∀ h name d err, c.Fetch h name d false = .error err → err.Cause = .ErrNotFound)
    (hL : ∀ h name d img, c.Fetch h name d false = .ok img →
      ∃ id, img.Label "io.buildpacks.stack.id" = .ok id) :
    ((∃ err, (validateRunImageConfig c opts tr).1 = some err) ↔
      ∃ img ∈ acceptedCandidates c opts.Publish
          (opts.BuilderConfig.Stack.RunImage :: opts.BuilderConfig.Stack.RunImageMirrors) tr,
        ∃ id, img.Label "io.buildpacks.stack.id" = .ok id ∧
          id ≠ opts.BuilderConfig.Stack.ID) ∧
    ((∀ h name d,
        name ∈ opts.BuilderConfig.Stack.RunImage :: opts.BuilderConfig.Stack.RunImageMirrors →
        ∃ err, c.Fetch h name d false = .error err) →
      acceptedCandidates c opts.Publish
          (opts.BuilderConfig.Stack.RunImage :: opts.BuilderConfig.Stack.RunImageMirrors) tr = [] ∧
        (validateRunImageConfig c opts tr).1 = none) ∧
    ∃ evs, (validateRunImageConfig c opts tr).2 = tr ++ evs ∧
      ∀ img, img ∈ acceptedCandidates c opts.Publish
          (opts.BuilderConfig.Stack.RunImage :: opts.BuilderConfig.Stack.RunImageMirrors) tr ↔
        ∃ pre post name d,
          name ∈ opts.BuilderConfig.Stack.RunImage :: opts.BuilderConfig.Stack.RunImageMirrors ∧
          evs = pre ++ .Fetch name d false :: post ∧
          c.Fetch (tr ++ pre) name d false = .ok img := by
  obtain ⟨visited, evs, ht, _, hk, _, _, _, hres⟩ := fetchRunImages_spec c opts.Publish
    (opts.BuilderConfig.Stack.RunImage :: opts.BuilderConfig.Stack.RunImageMirrors) [] tr
  have hacc := fetchRunImages_accepted c opts.Publish hF
    (opts.BuilderConfig.Stack.RunImage :: opts.BuilderConfig.Stack.RunImageMirrors) [] tr
  rcases hres with ⟨_, found, hf1, hf2⟩ | ⟨pre, j, d, err, _, h2, h3, _⟩
  · have hfound : found = acceptedCandidates c opts.Publish
        (opts.BuilderConfig.Stack.RunImage :: opts.BuilderConfig.Stack.RunImageMirrors) tr := by
      rw [hf1] at hacc
      simpa using hacc
    subst hfound
    rcases hfr : fetchRunImages c opts.Publish
      (opts.BuilderConfig.Stack.RunImage :: opts.BuilderConfig.Stack.RunImageMirrors) [] tr
      with ⟨r, tr1⟩
    rw [hfr] at ht hf1
    simp only [List.nil_append] at ht hf1
    subst ht hf1
    have hcand : ∀ h j d, Occurs tr evs h (.Fetch j d false) →
        j ∈ opts.BuilderConfig.Stack.RunImage :: opts.BuilderConfig.Stack.RunImageMirrors := by
      intro h j d ho
      rcases hk _ ho.mem with ⟨j', d', hj', he⟩ | ⟨f, a, he⟩
      · simp only [Event.Fetch.injEq] at he
        rw [he.1]
        exact hj'
      · simp at he
    have hlabels : ∀ img ∈ acceptedCandidates c opts.Publish
        (opts.BuilderConfig.Stack.RunImage :: opts.BuilderConfig.Stack.RunImageMirrors) tr,
        ∃ id, img.Label "io.buildpacks.stack.id" = .ok id := by
      intro img himg
      obtain ⟨h, j, d, _, hf⟩ := (hf2 img).mp himg
      exact hL h j d img hf
    refine ⟨?_, ?_, evs, by simp [validateRunImageConfig, hfr], ?_⟩
    · simp only [validateRunImageConfig, hfr]
      exact checkStackIDs_iff _ _ hlabels
    · intro hnone
      have hempty : acceptedCandidates c opts.Publish
          (opts.BuilderConfig.Stack.RunImage :: opts.BuilderConfig.Stack.RunImageMirrors) tr
          = [] := by
        apply List.eq_nil_iff_forall_not_mem.mpr
        intro img himg
        obtain ⟨h, j, d, ho, hf⟩ := (hf2 img).mp himg
        obtain ⟨err, herr⟩ := hnone h j d (hcand h j d ho)
        rw [herr] at hf
        simp at hf
      refine ⟨hempty, ?_⟩
      simp only [validateRunImageConfig, hfr, hempty, checkStackIDs]
    · intro img
      rw [hf2 img]
      constructor
      · rintro ⟨h, j, d, ho, hf⟩
        have hj := hcand h j d ho
        obtain ⟨pre, post, h1, h2⟩ := ho
        subst h2
        exact ⟨pre, post, j, d, hj, h1, hf⟩
      · rintro ⟨pre, post, name, d, _, h1, hf⟩
        exact ⟨tr ++ pre, name, d, ⟨pre, post, h1, rfl⟩, hf⟩
  · exact absurd (hF _ _ _ _ h2) h3

/-- C4 at concrete inputs. The run image `some/run` is not in the daemon, the
registry has it on the stack `some.stack`, and the config declares
`other.stack`: the image is accepted and validation returns an error, the
stack mismatch naming `some/run`. With the same config where no image is found
anywhere, validation passes. -/
theorem validateRunImageConfig_error_iff_witness :
    (∃ err, (validateRunImageConfig sampleClient otherStackOptions []).1 = some err) ∧
    (validateRunImageConfig sampleClient otherStackOptions []).1 =
      some (.Errorf "stack %s from builder config is incompatible with stack %s from run image %s"
        ["other.stack", "some.stack", "some/run"]) ∧
    (validateRunImageConfig missingImageClient otherStackOptions []).1 = none :=
  ⟨(validateRunImageConfig_error_iff sampleClient otherStackOptions []
      (by
        intro h name d err he
        cases d <;> simp [sampleClient] at he
        rw [← he]
        rfl)
      (by
        intro h name d img he
        cases d <;> simp [sampleClient] at he
        rw [← he]
        exact ⟨"some.stack", rfl⟩)).1.mpr
      ⟨sampleImage "some/run" "some.stack", List.mem_singleton.mpr rfl, "some.stack", rfl,
        by decide⟩,
   by decide,
   ((validateRunImageConfig_error_iff missingImageClient otherStackOptions []
      (by
        intro h name d err he
        simp only [missingImageClient, Except.error.injEq] at he
        rw [← he]
        rfl)
      (by
        intro h name d img he
        simp [missingImageClient] at he)).2.1
      (fun _ _ _ _ => ⟨.ErrNotFound, rfl⟩)).2⟩

/-- C5, as far as the code goes: `validateRunImageConfig` visits a prefix of
the list (run image, then mirrors in declared order). A fetch that fails with
an error other than not-found ends the loop: it is the last call and its error
is returned; unless the calls end so, the whole list is visited. Every fetch
has `pull = false`. When publishing, the fetches are one registry fetch for
each visited candidate, in order, and no daemon fetch. When not publishing, the
daemon fetches are one for each visited candidate, in order; a registry fetch
is only made right after the daemon fetch of the same candidate reported
not-found, and is made at once after every such daemon fetch. -/
theorem validateRunImageConfig_fetches (c : Client) (opts : CreateBuilderOptions) (tr : Trace) :
    ∃ visited evs, (validateRunImageConfig c opts tr).2 = tr ++ evs ∧
      visited <+: opts.BuilderConfig.Stack.RunImage :: opts.BuilderConfig.Stack.RunImageMirrors ∧
      (visited = opts.BuilderConfig.Stack.RunImage :: opts.BuilderConfig.Stack.RunImageMirrors ∨
        ∃ pre j d err, evs = pre ++ [.Fetch j d false] ∧
          c.Fetch (tr ++ pre) j d false = .error err ∧ err.Cause ≠ .ErrNotFound ∧
          (validateRunImageConfig c opts tr).1 = some err) ∧
      (∀ pre post j d err, evs = pre ++ .Fetch j d false :: post →
        c.Fetch (tr ++ pre) j d false = .error err → err.Cause ≠ .ErrNotFound →
        post = [] ∧ (validateRunImageConfig c opts tr).1 = some err) ∧
      (∀ name d p, Event.Fetch name d p ∈ evs → p = false) ∧
      (opts.Publish = true →
        evs.filter Event.isFetch = visited.map (fun i => .Fetch i false false)) ∧
      (opts.Publish = false →
        evs.filter Event.isDaemonFetch = visited.map (fun i => .Fetch i true false) ∧
        (∀ pre post i, evs = pre ++ .Fetch i false false :: post →
          ∃ pre' err, pre = pre' ++ [.Fetch i true false] ∧
            c.Fetch (tr ++ pre') i true false = .error err ∧ err.Cause = .ErrNotFound) ∧
        (∀ pre post i err, evs = pre ++ .Fetch i true false :: post →
          c.Fetch (tr ++ pre) i true false = .error err → err.Cause = .ErrNotFound →
          ∃ post', post = .Fetch i false false :: post')) := by
  obtain ⟨visited, evs, ht, hv, hk, hp, hd, hr, hres⟩ := fetchRunImages_spec c opts.Publish
    (opts.BuilderConfig.Stack.RunImage :: opts.BuilderConfig.Stack.RunImageMirrors) [] tr
  obtain ⟨hn1, hn2⟩ := fetchRunImages_ends c opts.Publish
    (opts.BuilderConfig.Stack.RunImage :: opts.BuilderConfig.Stack.RunImageMirrors) [] tr evs ht
  rcases hfr : fetchRunImages c opts.Publish
    (opts.BuilderConfig.Stack.RunImage :: opts.BuilderConfig.Stack.RunImageMirrors) [] tr
    with ⟨r, tr1⟩
  rw [hfr] at ht hres hn1
  simp only at ht hres hn1
  subst ht
  refine ⟨visited, evs, ?_, hv, ?_, ?_, ?_, hp, ?_⟩
  · cases r <;> simp [validateRunImageConfig, hfr]
  · rcases hres with ⟨hv', _⟩ | ⟨pre, j, d, err, h1, h2, h3, h4⟩
    · exact Or.inl hv'
    · subst h4
      exact Or.inr ⟨pre, j, d, err, h1, h2, h3, by simp [validateRunImageConfig, hfr]⟩
  · intro pre post j d err he hf hne
    obtain ⟨h1, h2⟩ := hn1 (tr ++ pre) j d err post ⟨pre, he, rfl⟩ hf hne
    subst h2
    exact ⟨h1, by simp [validateRunImageConfig, hfr]⟩
  · intro name d p he
    rcases hk _ he with ⟨j, d', _, h1⟩ | ⟨f, a, h1⟩
    · simp only [Event.Fetch.injEq] at h1
      exact h1.2.2
    · simp at h1
  · intro hpub
    refine ⟨hd hpub, ?_, ?_⟩
    · intro pre post i he
      obtain ⟨h', err, h1, ⟨pre', h2⟩, h3, h4⟩ := hr hpub (tr ++ pre) i ⟨pre, post, he, rfl⟩
      subst h2
      rw [List.append_assoc] at h1
      exact ⟨pre', err, List.append_cancel_left h1, h3, h4⟩
    · intro pre post i err he hf hc
      exact hn2 hpub (tr ++ pre) i err post ⟨pre, he, rfl⟩ hf hc

/-- C5 at concrete inputs. Publishing with both images in the registry: one
registry fetch for each candidate. Not publishing, with `some/run` missing from
the daemon: the daemon fetch, then at once the registry fetch. Publishing with
a registry that cannot be reached: the first fetch fails with an error other
than not-found, is the only call, and its error is returned. -/
theorem validateRunImageConfig_fetches_witness :
    ((validateRunImageConfig sampleClient publishOptions []).2 =
        [.Fetch "some/run" false false, .Fetch "example.com/some/run" false false] ∧
      ∃ (visited : List String) (evs : List Event),
        (validateRunImageConfig sampleClient publishOptions []).2 = [] ++ evs ∧
        evs.filter Event.isFetch = visited.map (fun i => .Fetch i false false)) ∧
    ((validateRunImageConfig sampleClient otherStackOptions []).2 =
        [.Fetch "some/run" true false, .Fetch "some/run" false false] ∧
      ∃ (visited : List String) (evs : List Event),
        (validateRunImageConfig sampleClient otherStackOptions []).2 = [] ++ evs ∧
        evs.filter Event.isDaemonFetch = visited.map (fun i => .Fetch i true false) ∧
        (∀ pre post i, evs = pre ++ .Fetch i false false :: post →
          ∃ pre' err, pre = pre' ++ [.Fetch i true false] ∧
            sampleClient.Fetch ([] ++ pre') i true false = .error err ∧
            err.Cause = .ErrNotFound) ∧
        (∀ pre post i err, evs = pre ++ .Fetch i true false :: post →
          sampleClient.Fetch ([] ++ pre) i true false = .error err → err.Cause = .ErrNotFound →
          ∃ post', post = .Fetch i false false :: post')) ∧
    ((validateRunImageConfig unreachableClient publishOptions []).2 =
        [.Fetch "some/run" false false] ∧
      (validateRunImageConfig unreachableClient publishOptions []).1 = some (.External 7)) := by
  refine ⟨⟨by decide, ?_⟩, ⟨by decide, ?_⟩, ⟨by decide, ?_⟩⟩
  · obtain ⟨visited, evs, ht, _, _, _, _, hpub, _⟩ :=
      validateRunImageConfig_fetches sampleClient publishOptions []
    exact ⟨visited, evs, ht, hpub rfl⟩
  · obtain ⟨visited, evs, ht, _, _, _, _, _, hpub⟩ :=
      validateRunImageConfig_fetches sampleClient otherStackOptions []
    exact ⟨visited, evs, ht, hpub rfl⟩
  · obtain ⟨visited, evs, ht, _, _, hn1, _⟩ :=
      validateRunImageConfig_fetches unreachableClient publishOptions []
    have htr : (validateRunImageConfig unreachableClient publishOptions []).2 =
        [.Fetch "some/run" false false] := by
      decide
    rw [htr, List.nil_append] at ht
    exact (hn1 [] [] "some/run" false (.External 7) (by rw [← ht]; rfl) rfl (by decide)).2

/-- C5 as stated fails: when publishing with a registry that cannot be reached,
the fetch of the run image `some/run` fails with an error other than not-found
and ends the loop, so the mirror `example.com/some/run` is not fetched exactly
once from the registry: it is never fetched. -/
theorem validateRunImageConfig_mirror_not_fetched :
    publishOptions.Publish = true ∧
    (validateRunImageConfig unreachableClient publishOptions []).2 =
      [.Fetch "some/run" false false] ∧
    ¬ ∀ i ∈ publishOptions.BuilderConfig.Stack.RunImage ::
        publishOptions.BuilderConfig.Stack.RunImageMirrors,
      (validateRunImageConfig unreachableClient publishOptions []).2.count
        (.Fetch i false false) = 1 := by
  decide

/-! ## Assembly -/

/-- The calls of `validateRunImageConfig` are fetches and warnings. -/
theorem validateRunImageConfig_no_save (c : Client) (opts : CreateBuilderOptions) (tr : Trace) :
    ∃ evs, (validateRunImageConfig c opts tr).2 = tr ++ evs ∧ Event.Save ∉ evs := by
  obtain ⟨visited, evs, ht, _, hk, _⟩ := fetchRunImages_spec c opts.Publish
    (opts.BuilderConfig.Stack.RunImage :: opts.BuilderConfig.Stack.RunImageMirrors) [] tr
  refine ⟨evs, ?_, ?_⟩
  · rw [← ht]
    unfold validateRunImageConfig
    split <;> simp_all
  · intro hs
    rcases hk _ hs with ⟨j, d, _, h1⟩ | ⟨f, a, h1⟩ <;> simp at h1

/-- The calls of `fetchLifecycle` are at most one download; it panics only when
nothing is declared and the default version does not parse. -/
theorem fetchLifecycle_no_save (c : Client) (config : LifecycleConfig) (tr : Trace) :
    ∃ evs, (fetchLifecycle c config tr).2 = tr ++ evs ∧ Event.Save ∉ evs ∧
      ((fetchLifecycle c config tr).1 = .panic →
        config.Version = "" ∧ config.URI = "" ∧
          ∃ err, c.NewVersion c.DefaultLifecycleVersion = .error err) := by
  unfold fetchLifecycle
  split
  · exact ⟨[], by simp, by simp, by simp⟩
  · split
    · split
      · exact ⟨[], by simp, by simp, by simp⟩
      · exact ⟨_, downloadLifecycle_trace c _ tr, by simp,
          fun h => absurd h (downloadLifecycle_ne_panic c _ tr)⟩
    · split
      · exact ⟨_, downloadLifecycle_trace c _ tr, by simp,
          fun h => absurd h (downloadLifecycle_ne_panic c _ tr)⟩
      · rename_i hv hu
        simp only [ne_eq, Decidable.not_not] at hv hu
        split
        · rename_i err hp
          exact ⟨[], by simp, by simp, fun _ => ⟨hv, hu, err, hp⟩⟩
        · exact ⟨_, downloadLifecycle_trace c _ tr, by simp,
            fun h => absurd h (downloadLifecycle_ne_panic c _ tr)⟩

/-- The body of the buildpack loop: its only call is the download, and it gives
a buildpack exactly when the four steps succeed. -/
theorem fetchBuildpack_spec (c : Client) (b : BuildpackConfig) (tr : Trace) :
    (∃ err, (fetchBuildpack c b tr).1 = .error err ∧
      ((fetchBuildpack c b tr).2 = tr ∨ (fetchBuildpack c b tr).2 = tr ++ [.Download b.URI])) ∨
    (∃ fb, fetchBuildpack c b tr = (.ok fb, tr ++ [.Download b.URI]) ∧
      c.ensureBPSupport b.URI = none ∧
      (∃ blob, c.Download tr b.URI = .ok blob ∧
        c.NewBuildpack (tr ++ [.Download b.URI]) blob = .ok fb) ∧
      validateBuildpack fb b.URI b.ID b.Version = none) := by
  unfold fetchBuildpack
  split
  · exact Or.inl ⟨_, rfl, Or.inl rfl⟩
  · rename_i hs
    split
    · exact Or.inl ⟨_, rfl, Or.inr rfl⟩
    · rename_i blob hd
      split
      · exact Or.inl ⟨_, rfl, Or.inr rfl⟩
      · rename_i fb hn
        split
        · exact Or.inl ⟨_, rfl, Or.inr rfl⟩
        · rename_i hv
          exact Or.inr ⟨fb, rfl, hs, ⟨blob, hd, hn⟩, hv⟩

theorem save_not_mem_acquisitionEvents :
    ∀ (bps : List BuildpackConfig) (fbs : List Buildpack),
      Event.Save ∉ acquisitionEvents bps fbs
  | [], _ => by simp [acquisitionEvents]
  | _ :: _, [] => by simp [acquisitionEvents]
  | _ :: rest, _ :: fbs => by
    simp [acquisitionEvents, save_not_mem_acquisitionEvents rest fbs]

/-- The buildpack loop: it never saves, and it ends without error exactly when
every buildpack has been acquired, its calls being then the downloads and
additions in declared order. -/
theorem addBuildpacks_spec (c : Client) :
    ∀ (bps : List BuildpackConfig) (tr : Trace),
      ∃ evs, (addBuildpacks c bps tr).2 = tr ++ evs ∧ Event.Save ∉ evs ∧
        ((∃ err, (addBuildpacks c bps tr).1 = some err) ∨
          ((addBuildpacks c bps tr).1 = none ∧
            ∃ fbs, Acquired c bps fbs tr ∧ evs = acquisitionEvents bps fbs)) := by
  intro bps
  induction bps with
  | nil =>
    intro tr
    exact ⟨[], by simp [addBuildpacks], by simp,
      Or.inr ⟨by simp [addBuildpacks], [], by simp [Acquired], by simp [acquisitionEvents]⟩⟩
  | cons b rest ih =>
    intro tr
    rcases fetchBuildpack_spec c b tr with ⟨err, h1, h2⟩ | ⟨fb, h1, hs, hd, hv⟩
    · rcases hfb : fetchBuildpack c b tr with ⟨r, tr1⟩
      rw [hfb] at h1 h2
      simp only at h1 h2
      subst h1
      simp only [addBuildpacks, hfb]
      rcases h2 with h2 | h2
      · exact ⟨[], by simp [h2], by simp, Or.inl ⟨_, rfl⟩⟩
      · exact ⟨[.Download b.URI], by simp [h2], by simp, Or.inl ⟨_, rfl⟩⟩
    · obtain ⟨evs, ht, hsave, hres⟩ := ih (tr ++ [.Download b.URI] ++ [.AddBuildpack fb])
      simp only [List.append_assoc, List.cons_append, List.nil_append] at ht hres
      simp only [addBuildpacks, h1, List.append_assoc, List.cons_append, List.nil_append]
      refine ⟨.Download b.URI :: .AddBuildpack fb :: evs, ht, by simp [hsave], ?_⟩
      rcases hres with hres | ⟨hnone, fbs, hacq, hevs⟩
      · exact Or.inl hres
      · exact Or.inr ⟨hnone, fb :: fbs, ⟨hs, hd, hv, hacq⟩, by simp [acquisitionEvents, hevs]⟩

/-- A buildpack that fails its acquisition is not among acquired buildpacks. -/
theorem Acquired.not_fails (c : Client) :
    ∀ (bps : List BuildpackConfig) (fbs : List Buildpack) (tr : Trace),
      Acquired c bps fbs tr → ∀ b ∈ bps, ¬ FailsAcquisition c b
  | [], _, _ => by simp
  | _ :: _, [], _ => by simp [Acquired]
  | b :: rest, fb :: fbs, tr => by
    rintro ⟨hs, ⟨blob, hd, hn⟩, hv, hrest⟩ b' hb'
    rcases List.mem_cons.mp hb' with rfl | hb'
    · rintro (⟨err, h⟩ | h | h | h)
      · rw [hs] at h; simp at h
      · obtain ⟨err, h⟩ := h tr
        rw [hd] at h; simp at h
      · obtain ⟨err, h⟩ := h tr blob hd
        rw [hn] at h; simp at h
      · obtain ⟨err, h⟩ := h tr blob fb hd hn
        rw [hv] at h; simp at h
    · exact Acquired.not_fails c rest fbs _ hrest b' hb'

theorem ExtendsWithoutSave.refl (tr : Trace) : ExtendsWithoutSave tr tr :=
  ⟨[], by simp, by simp⟩

theorem ExtendsWithoutSave.snoc {tr tr' : Trace} (h : ExtendsWithoutSave tr tr') (e : Event)
    (he : e ≠ .Save) : ExtendsWithoutSave tr (tr' ++ [e]) := by
  obtain ⟨evs, h1, h2⟩ := h
  refine ⟨evs ++ [e], by rw [h1, List.append_assoc], ?_⟩
  simp only [List.mem_append, List.mem_singleton, not_or]
  exact ⟨h2, fun h => he h.symm⟩

theorem ExtendsWithoutSave.append {tr tr' : Trace} (h : ExtendsWithoutSave tr tr')
    (l : List Event) (hl : Event.Save ∉ l) : ExtendsWithoutSave tr (tr' ++ l) := by
  obtain ⟨evs, h1, h2⟩ := h
  refine ⟨evs ++ l, by rw [h1, List.append_assoc], ?_⟩
  simp only [List.mem_append, not_or]
  exact ⟨h2, hl⟩

theorem ExtendsWithoutSave.trans {tr tr' tr'' : Trace} (h : ExtendsWithoutSave tr tr')
    (h' : ExtendsWithoutSave tr' tr'') : ExtendsWithoutSave tr tr'' := by
  obtain ⟨evs, h1, h2⟩ := h
  obtain ⟨evs', h1', h2'⟩ := h'
  refine ⟨evs ++ evs', by rw [h1', h1, List.append_assoc], ?_⟩
  simp only [List.mem_append, not_or]
  exact ⟨h2, h2'⟩

theorem validateRunImageConfig_extends {c : Client} {opts : CreateBuilderOptions}
    {tr tr' : Trace} {r : Option Error} (h : validateRunImageConfig c opts tr = (r, tr')) :
    ExtendsWithoutSave tr tr' := by
  obtain ⟨evs, h1, h2⟩ := validateRunImageConfig_no_save c opts tr
  rw [h] at h1
  exact ⟨evs, h1, h2⟩

theorem fetchLifecycle_extends {c : Client} {config : LifecycleConfig} {tr tr' : Trace}
    {r : Outcome Lifecycle} (h : fetchLifecycle c config tr = (r, tr')) :
    ExtendsWithoutSave tr tr' ∧
      (r = .panic → config.Version = "" ∧ config.URI = "" ∧
        ∃ err, c.NewVersion c.DefaultLifecycleVersion = .error err) := by
  obtain ⟨evs, h1, h2, h3⟩ := fetchLifecycle_no_save c config tr
  rw [h] at h1 h3
  exact ⟨⟨evs, h1, h2⟩, h3⟩

theorem addBuildpacks_extends {c : Client} {bps : List BuildpackConfig} {tr tr' : Trace}
    {r : Option Error} (h : addBuildpacks c bps tr = (r, tr')) :
    ExtendsWithoutSave tr tr' ∧
      (r = none → ∃ fbs, Acquired c bps fbs tr ∧ tr' = tr ++ acquisitionEvents bps fbs) := by
  obtain ⟨evs, h1, h2, h3⟩ := addBuildpacks_spec c bps tr
  rw [h] at h1 h3
  simp only at h1 h3
  refine ⟨⟨evs, h1, h2⟩, ?_⟩
  intro hr
  subst hr
  rcases h3 with ⟨err, h3⟩ | ⟨_, fbs, h4, h5⟩
  · simp at h3
  · exact ⟨fbs, h4, by rw [h1, h5]⟩

theorem Assembled.of_error {c : Client} {opts : CreateBuilderOptions} {tr tr' : Trace}
    (err : Error) (h : ExtendsWithoutSave tr tr') : Assembled c opts tr (.error err, tr') :=
  Or.inl ⟨h, Or.inl ⟨err, rfl⟩⟩

/-- Every run of `CreateBuilder` ends in one of the two ways of `Assembled`. -/
theorem CreateBuilder_assembled (c : Client) (opts : CreateBuilderOptions) (tr : Trace) :
    Assembled c opts tr (CreateBuilder c opts tr) := by
  unfold CreateBuilder
  split
  · exact Assembled.of_error _ (ExtendsWithoutSave.refl tr)
  split
  · rename_i heq
    exact Assembled.of_error _ (validateRunImageConfig_extends heq)
  rename_i tr1 heq
  have h1 := validateRunImageConfig_extends heq
  simp only []
  split
  · exact Assembled.of_error _ (h1.snoc _ (by simp))
  split
  · exact Assembled.of_error _ ((h1.snoc _ (by simp)).snoc _ (by simp))
  split
  · exact Assembled.of_error _ ((h1.snoc _ (by simp)).snoc _ (by simp))
  split
  · exact Assembled.of_error _ ((h1.snoc _ (by simp)).snoc _ (by simp))
  have h2 := (h1.snoc _ (by simp : Event.Fetch opts.BuilderConfig.Stack.BuildImage
    (!opts.Publish) (!opts.NoPull) ≠ .Save)).snoc _
    (by simp : Event.Fetch opts.BuilderConfig.Stack.RunImage (!opts.Publish) (!opts.NoPull) ≠ .Save)
  split
  · exact Assembled.of_error _ (h2.append _ (by simp))
  split
  · exact Assembled.of_error _ ((h2.append _ (by simp)).snoc _ (by simp))
  split
  · rename_i heqL
    have hL := fetchLifecycle_extends heqL
    refine Or.inl ⟨ExtendsWithoutSave.trans ?_ hL.1, Or.inr ⟨rfl, hL.2 rfl⟩⟩
    exact ((h2.append _ (by simp)).snoc _ (by simp)).snoc _ (by simp)
  · rename_i heqL
    refine Assembled.of_error _ (ExtendsWithoutSave.trans ?_ (fetchLifecycle_extends heqL).1)
    exact ((h2.append _ (by simp)).snoc _ (by simp)).snoc _ (by simp)
  rename_i lifecycle trL heqL
  have hL : ExtendsWithoutSave tr trL := by
    refine ExtendsWithoutSave.trans ?_ (fetchLifecycle_extends heqL).1
    exact ((h2.append _ (by simp)).snoc _ (by simp)).snoc _ (by simp)
  split
  · exact Assembled.of_error _ (hL.snoc _ (by simp))
  split
  · rename_i heqB
    exact Assembled.of_error _ ((hL.snoc _ (by simp)).trans (addBuildpacks_extends heqB).1)
  rename_i trB heqB
  obtain ⟨fbs, hacq, htr⟩ := (addBuildpacks_extends heqB).2 rfl
  obtain ⟨pre, hpre, hsave⟩ := hL.snoc (.SetLifecycle lifecycle) (by simp)
  rw [hpre] at hacq htr
  subst htr
  split
  · exact Or.inr ⟨pre, fbs, hsave, hacq, by simp, ⟨_, _, _, heqL⟩, Or.inr ⟨_, rfl⟩⟩
  · exact Or.inr ⟨pre, fbs, hsave, hacq, by simp, ⟨_, _, _, heqL⟩, Or.inl rfl⟩

example : CreateBuilder sampleClient
    (builderOptions ⟨"", "lifecycle-uri"⟩ [⟨"good-uri", "bp.one", "1.2.3"⟩, ⟨"other-uri", "", ""⟩])
    [] =
    (.ok (),
      [.Fetch "some/run" false false,
       .Fetch "some/build" false true, .Fetch "some/run" false true,
       .Debugf "Creating builder %s from build-image %s" ["some/builder", "some/build"],
       .BuilderNew "some/build" "some/builder", .SetDescription "a builder", .SetMixins [],
       .Download "lifecycle-uri", .SetLifecycle ⟨0⟩,
       .Download "good-uri", .AddBuildpack ⟨⟨⟨"bp.one", "1.2.3"⟩⟩⟩,
       .Download "other-uri", .AddBuildpack ⟨⟨⟨"bp.one", "1.2.3"⟩⟩⟩,
       .SetOrder [], .SetStack ⟨"some.stack", "some/build", "some/run", []⟩, .Save]) := by
  decide
example : CreateBuilder sampleClient
    (builderOptions ⟨"", "lifecycle-uri"⟩ [⟨"good-uri", "bp.one", "1.2.3"⟩, ⟨"bad-uri", "", ""⟩])
    [] =
    (.error (.Wrap (.External 1) "downloading buildpack from %s" ["bad-uri"]),
      [.Fetch "some/run" false false,
       .Fetch "some/build" false true, .Fetch "some/run" false true,
       .Debugf "Creating builder %s from build-image %s" ["some/builder", "some/build"],
       .BuilderNew "some/build" "some/builder", .SetDescription "a builder", .SetMixins [],
       .Download "lifecycle-uri", .SetLifecycle ⟨0⟩,
       .Download "good-uri", .AddBuildpack ⟨⟨⟨"bp.one", "1.2.3"⟩⟩⟩,
       .Download "bad-uri"]) := by
  decide

/-- C3: in every run of `CreateBuilder`, for every behaviour of the
collaborators, `Save` is called at most once; when it is called it is the last
call, made right after `SetOrder` and `SetStack`, and before these the calls
of the buildpack loop are the download and the addition of every buildpack of
the config in declared order, each one acquired and validated; and
`CreateBuilder` only succeeds after calling `Save`. When a buildpack of the
list fails its source check, its download, its parsing or its identity
validation, `Save` is not called and `CreateBuilder` does not succeed: it
returns an error (the default lifecycle version being a valid semver, so that
`semver.MustParse` does not panic). -/
theorem CreateBuilder_save (c : Client) (opts : CreateBuilderOptions) (tr : Trace) :
    ∃ evs, (CreateBuilder c opts tr).2 = tr ++ evs ∧
      evs.count .Save ≤ 1 ∧
      (.Save ∈ evs → ∃ pre fbs, Event.Save ∉ pre ∧
        Acquired c opts.BuilderConfig.Buildpacks fbs (tr ++ pre) ∧
        evs = pre ++ acquisitionEvents opts.BuilderConfig.Buildpacks fbs ++
          [.SetOrder opts.BuilderConfig.Order, .SetStack opts.BuilderConfig.Stack, .Save]) ∧
      ((CreateBuilder c opts tr).1 = .ok () → .Save ∈ evs) ∧
      ((∃ b ∈ opts.BuilderConfig.Buildpacks, FailsAcquisition c b) →
        Event.Save ∉ evs ∧ (CreateBuilder c opts tr).1 ≠ .ok () ∧
        ((∃ v, c.NewVersion c.DefaultLifecycleVersion = .ok v) →
          ∃ err, (CreateBuilder c opts tr).1 = .error err)) := by
  rcases CreateBuilder_assembled c opts tr with
    ⟨⟨evs, h1, h2⟩, hres⟩ | ⟨pre, fbs, hpre, hacq, htr, _, hres⟩
  · refine ⟨evs, h1, ?_, fun h => absurd h h2, ?_, ?_⟩
    · rw [List.count_eq_zero_of_not_mem h2]
      exact Nat.zero_le 1
    · intro hok
      rcases hres with ⟨err, he⟩ | ⟨hp, _⟩
      · rw [he] at hok; simp at hok
      · rw [hp] at hok; simp at hok
    · intro _
      refine ⟨h2, ?_, ?_⟩
      · rcases hres with ⟨err, he⟩ | ⟨hp, _⟩
        · rw [he]; simp
        · rw [hp]; simp
      · rintro ⟨v, hv⟩
        rcases hres with h | ⟨_, _, _, err, he⟩
        · exact h
        · rw [hv] at he
          simp at he
  · have hno := save_not_mem_acquisitionEvents opts.BuilderConfig.Buildpacks fbs
    refine ⟨pre ++ acquisitionEvents opts.BuilderConfig.Buildpacks fbs ++
      [.SetOrder opts.BuilderConfig.Order, .SetStack opts.BuilderConfig.Stack, .Save],
      by rw [htr]; simp, ?_, fun _ => ⟨pre, fbs, hpre, hacq, rfl⟩, fun _ => by simp, ?_⟩
    · rw [List.count_append, List.count_append, List.count_eq_zero_of_not_mem hpre,
        List.count_eq_zero_of_not_mem hno]
      simp [List.count_cons]
    · rintro ⟨b, hb, hfail⟩
      exact absurd hfail (Acquired.not_fails c _ fbs _ hacq b hb)

/-- C3 at concrete inputs. With the buildpacks `good-uri` and `bad-uri`, the
second of which cannot be downloaded, `CreateBuilder` returns an error and
does not save. With two buildpacks that can be acquired, `Save` is called and
the calls end as stated. -/
theorem CreateBuilder_save_witness :
    (∃ evs,
      (CreateBuilder sampleClient
        (builderOptions ⟨"", ""⟩ [⟨"good-uri", "bp.one", "1.2.3"⟩, ⟨"bad-uri", "", ""⟩]) []).2 =
        [] ++ evs ∧
      Event.Save ∉ evs ∧
      ∃ err, (CreateBuilder sampleClient
        (builderOptions ⟨"", ""⟩ [⟨"good-uri", "bp.one", "1.2.3"⟩, ⟨"bad-uri", "", ""⟩]) []).1 =
        .error err) ∧
    (∃ pre fbs, Event.Save ∉ pre ∧
      Acquired sampleClient [⟨"good-uri", "bp.one", "1.2.3"⟩, ⟨"other-uri", "", ""⟩] fbs
        ([] ++ pre) ∧
      (CreateBuilder sampleClient
        (builderOptions ⟨"", ""⟩ [⟨"good-uri", "bp.one", "1.2.3"⟩, ⟨"other-uri", "", ""⟩]) []).2 =
        [] ++ (pre ++
          acquisitionEvents [⟨"good-uri", "bp.one", "1.2.3"⟩, ⟨"other-uri", "", ""⟩] fbs ++
          [.SetOrder [], .SetStack ⟨"some.stack", "some/build", "some/run", []⟩, .Save])) := by
  constructor
  · obtain ⟨evs, h1, _, _, _, h4⟩ := CreateBuilder_save sampleClient
      (builderOptions ⟨"", ""⟩ [⟨"good-uri", "bp.one", "1.2.3"⟩, ⟨"bad-uri", "", ""⟩]) []
    have h := h4 ⟨⟨"bad-uri", "", ""⟩, by simp [builderOptions, sampleOptions, sampleConfig],
      Or.inr (Or.inl (fun _ => ⟨.External 1, rfl⟩))⟩
    exact ⟨evs, h1, h.1, h.2.2 ⟨⟨"0.4.0"⟩, rfl⟩⟩
  · obtain ⟨evs, h1, _, h3, _, _⟩ := CreateBuilder_save sampleClient
      (builderOptions ⟨"", ""⟩ [⟨"good-uri", "bp.one", "1.2.3"⟩, ⟨"other-uri", "", ""⟩]) []
    have hsave : Event.Save ∈ (CreateBuilder sampleClient
        (builderOptions ⟨"", ""⟩ [⟨"good-uri", "bp.one", "1.2.3"⟩, ⟨"other-uri", "", ""⟩]) []).2 := by
      decide
    rw [h1, List.nil_append] at hsave
    obtain ⟨pre, fbs, hpre, hacq, hevs⟩ := h3 hsave
    exact ⟨pre, fbs, hpre, hacq, by rw [h1, hevs]; rfl⟩

/-- C10: with both `Version` and `URI` declared, `fetchLifecycle` returns an
error and makes no call, the downloader is not called, whatever
`semver.NewVersion` says of the version; and `CreateBuilder` with such a
lifecycle config returns an error and never calls `Save`. -/
theorem fetchLifecycle_version_and_uri (c : Client) (config : LifecycleConfig) (tr : Trace)
    (hv : config.Version ≠ "") (hu : config.URI ≠ "") :
    (∃ err, (fetchLifecycle c config tr).1 = .error err) ∧
    (fetchLifecycle c config tr).2 = tr ∧
    ∀ (opts : CreateBuilderOptions) (tr' : Trace), opts.BuilderConfig.Lifecycle = config →
      (∃ err, (CreateBuilder c opts tr').1 = .error err) ∧
      ∃ evs, (CreateBuilder c opts tr').2 = tr' ++ evs ∧ Event.Save ∉ evs := by
  refine ⟨⟨_, by rw [fetchLifecycle_both c config tr hv hu]⟩,
    by rw [fetchLifecycle_both c config tr hv hu], ?_⟩
  intro opts tr' hcfg
  subst hcfg
  rcases CreateBuilder_assembled c opts tr' with
    ⟨⟨evs, h1, h2⟩, hres⟩ | ⟨_, _, _, _, _, ⟨trL, lc, trL', hL⟩, _⟩
  · refine ⟨?_, evs, h1, h2⟩
    rcases hres with h | ⟨_, h, _⟩
    · exact h
    · exact absurd h hv
  · rw [fetchLifecycle_both c _ trL hv hu] at hL
    simp at hL

/-- C10 at a concrete input: the valid version `0.3.0` together with an
address. -/
theorem fetchLifecycle_version_and_uri_witness :
    (∃ err, (fetchLifecycle sampleClient ⟨"0.3.0", "lifecycle-uri"⟩ []).1 = .error err) ∧
    (fetchLifecycle sampleClient ⟨"0.3.0", "lifecycle-uri"⟩ []).2 = [] ∧
    (∃ err, (CreateBuilder sampleClient
      (builderOptions ⟨"0.3.0", "lifecycle-uri"⟩ [⟨"good-uri", "", ""⟩]) []).1 = .error err) ∧
    ∃ evs, (CreateBuilder sampleClient
      (builderOptions ⟨"0.3.0", "lifecycle-uri"⟩ [⟨"good-uri", "", ""⟩]) []).2 = [] ++ evs ∧
      Event.Save ∉ evs :=
  have h := fetchLifecycle_version_and_uri sampleClient ⟨"0.3.0", "lifecycle-uri"⟩ []
    (by decide) (by decide)
  ⟨h.1, h.2.1, h.2.2 (builderOptions ⟨"0.3.0", "lifecycle-uri"⟩ [⟨"good-uri", "", ""⟩]) [] rfl⟩

/-! ## Builder descriptions -/

example : getBuilderDescription "cloudfoundry/cnb:bionic" (packClientOf sampleClient sampleGet []) =
    .ok "a builder" := by
  decide
example : getBuilderDescription "heroku/buildpacks:18" (packClientOf unreachableClient sampleGet []) =
    .ok "heroku-18 base image with buildpacks for Ruby, Java, Node.js, Python, Golang, & PHP" := by
  decide

/-- The method `InspectBuilder` returns `nil, nil` when the fetch of the image
reports not-found. -/
theorem InspectBuilder_not_found (c : Client) (get : Image → Except Error GotBuilder)
    (name : String) (daemon : Bool) (tr : Trace) (err : Error)
    (hf : c.Fetch tr name daemon false = .error err) (hc : err.Cause = .ErrNotFound) :
    (InspectBuilder c get name daemon tr).1 = (none, none) := by
  unfold InspectBuilder
  rw [hf]
  simp [hc]

/-- What `getBuilderDescription` does with each result of `InspectBuilder`. -/
theorem getBuilderDescription_cases (builderName : String) (client : PackClient) :
    (client.InspectBuilder builderName false = (none, none) →
      getBuilderDescription builderName client = .panic) ∧
    (∀ info, client.InspectBuilder builderName false = (some info, none) →
      getBuilderDescription builderName client =
        .ok (orDefaultDescription builderName info.Description)) ∧
    (∀ info err, client.InspectBuilder builderName false = (info, some err) →
      getBuilderDescription builderName client = .ok (orDefaultDescription builderName "")) := by
  refine ⟨?_, ?_, ?_⟩
  · intro h
    simp [getBuilderDescription, h]
  · intro info h
    simp [getBuilderDescription, h]
  · intro info err h
    simp [getBuilderDescription, h]

/-- C13, where the code departs from it: for the suggested builder
`cloudfoundry/cnb:bionic`, when its image does not exist `InspectBuilder`
returns a nil `BuilderInfo` with a nil error, and `getBuilderDescription`
dereferences it and panics, where the default description
`Small base image with Java & Node.js` was to be returned. -/
theorem getBuilderDescription_nil_info :
    (InspectBuilder missingImageClient sampleGet "cloudfoundry/cnb:bionic" false []).1 =
      (none, none) ∧
    getBuilderDescription "cloudfoundry/cnb:bionic" (packClientOf missingImageClient sampleGet []) =
      .panic ∧
    orDefaultDescription "cloudfoundry/cnb:bionic" "" = "Small base image with Java & Node.js" := by
  decide

/-! ## Rebase: the run image -/

example : sampleDomain "some/app" = "" := by decide
example : sampleDomain "example.com/some/app" = "example.com" := by decide
example : baseAfter (Rebase (testRebaseClient testAppLabel) (testRebaseOptions "some/app" "" []) [])
    = .ok "some/run" := by
  decide
example : baseAfter (Rebase (testRebaseClient testAppLabel)
    (testRebaseOptions "example.com/some/app" "" []) []) = .ok "example.com/some/run" := by
  decide
example : baseAfter (Rebase (testRebaseClient testAppLabel)
    (testRebaseOptions "example.com/some/app" "" ["example.com/some/local-run"]) []) =
    .ok "example.com/some/local-run" := by
  decide
example : baseAfter (Rebase (testRebaseClient "\x7b\x7d") (testRebaseOptions "some/app" "" []) []) =
    .error (.New "run image must be specified") := by
  decide
example : (Rebase (testRebaseClient testAppLabel) (testRebaseOptions "some/app" "custom/run" []) []).2 =
    [.Fetch "some/app" true true, .Fetch "custom/run" true true, .Rebase "some/app" "custom/run",
     .SetLabel "some/app" "io.buildpacks.lifecycle.metadata"
       "\x7b\"runImage\":\x7b\"topLayer\":\"custom-base-top-layer-sha\",\"reference\":\"custom-base-digest\"\x7d,\"stack\":\x7b\"runImage\":\x7b\"image\":\"some/run\"\x7d\x7d\x7d",
     .Save "some/app"] := by
  decide

/-- An override is returned as it is. -/
theorem resolveRunImage_override (domain : String → String) (repoName labelRunImage : String)
    (labelMirrors : List String) (override : String) (additionalMirrors : String → List String)
    (h : override ≠ "") :
    resolveRunImage domain repoName labelRunImage labelMirrors override additionalMirrors =
      .ok override := by
  unfold resolveRunImage
  rw [if_pos h]

/-- Without override, the first candidate that matches the domain of the
repository is returned. -/
theorem resolveRunImage_first_match (domain : String → String) (repoName labelRunImage : String)
    (labelMirrors : List String) (additionalMirrors : String → List String)
    (pre post : List String) (r : String)
    (hl : runImageCandidates labelRunImage labelMirrors additionalMirrors = pre ++ r :: post)
    (hpre : ∀ x ∈ pre, matchesDomain domain repoName x = false)
    (hr : matchesDomain domain repoName r = true) :
    resolveRunImage domain repoName labelRunImage labelMirrors "" additionalMirrors = .ok r := by
  have hfind : (runImageCandidates labelRunImage labelMirrors additionalMirrors).find?
      (matchesDomain domain repoName) = some r := by
    rw [List.find?_eq_some]
    refine ⟨hr, pre, post, hl, ?_⟩
    intro x hx
    simp [hpre x hx]
  unfold resolveRunImage
  simp [hfind]

/-- Without override and without a candidate that matches, the run image of
the label is returned, or `MissingRunImageError` when it is empty. -/
theorem resolveRunImage_no_match (domain : String → String) (repoName labelRunImage : String)
    (labelMirrors : List String) (additionalMirrors : String → List String)
    (hnone : ∀ x ∈ runImageCandidates labelRunImage labelMirrors additionalMirrors,
      matchesDomain domain repoName x = false) :
    resolveRunImage domain repoName labelRunImage labelMirrors "" additionalMirrors =
      if labelRunImage ≠ "" then .ok labelRunImage else .error MissingRunImageError := by
  have hfind : (runImageCandidates labelRunImage labelMirrors additionalMirrors).find?
      (matchesDomain domain repoName) = none := by
    rw [List.find?_eq_none]
    intro x hx
    simp [hnone x hx]
  unfold resolveRunImage
  simp [hfind]

/-- When no run image is resolved, the rebase ends with the error of the
resolver, after the fetch of the application image and nothing else. -/
theorem Rebase_unresolved (c : RebaseClient) (opts : RebaseOptions) (tr : List RebaseEvent)
    (appImage : ImageHandle) (md : AppImageMetadata) (err : Error)
    (hf : c.Fetch tr opts.RepoName (!opts.Publish) (!opts.SkipPull) = .ok appImage)
    (hm : readAppMetadata c appImage = .ok md)
    (hr : resolveRunImage c.domain opts.RepoName md.StackRunImage.Image md.StackRunImage.Mirrors
      opts.RunImage opts.AdditionalMirrors = .error err) :
    Rebase c opts tr =
      (.error err, tr ++ [.Fetch opts.RepoName (!opts.Publish) (!opts.SkipPull)]) := by
  unfold Rebase
  simp only [hf, hm, hr]

/-- When the run image `name` is resolved, it is the one image fetched after
the application image; and when the rebase succeeds, the saved application
image has the fetched image as its base, and its metadata label is the
metadata with the `runImage` field set to the top layer and the reference of
that image. -/
theorem Rebase_resolved (c : RebaseClient) (opts : RebaseOptions) (tr : List RebaseEvent)
    (appImage : ImageHandle) (md : AppImageMetadata) (name : String)
    (hf : c.Fetch tr opts.RepoName (!opts.Publish) (!opts.SkipPull) = .ok appImage)
    (hm : readAppMetadata c appImage = .ok md)
    (hr : resolveRunImage c.domain opts.RepoName md.StackRunImage.Image md.StackRunImage.Mirrors
      opts.RunImage opts.AdditionalMirrors = .ok name) :
    ∃ rest, (Rebase c opts tr).2 =
        tr ++ .Fetch opts.RepoName (!opts.Publish) (!opts.SkipPull) ::
          .Fetch name (!opts.Publish) (!opts.SkipPull) :: rest ∧
      (∀ n d p, RebaseEvent.Fetch n d p ∉ rest) ∧
      ∀ img, (Rebase c opts tr).1 = .ok img →
        ∃ newBase contents,
          c.Fetch (tr ++ [.Fetch opts.RepoName (!opts.Publish) (!opts.SkipPull)]) name
            (!opts.Publish) (!opts.SkipPull) = .ok newBase ∧
          img.Name = appImage.Name ∧ img.Base = newBase.Name ∧
          c.Marshal { md with RunImage := ⟨newBase.TopLayer, newBase.Reference⟩ } = .ok contents ∧
          img.Label MetadataLabel = .ok contents := by
  unfold Rebase
  simp only [hf, hm, hr]
  split
  · exact ⟨[], by simp, by simp, by simp⟩
  rename_i _ newBase hnb
  split
  · exact ⟨[.Rebase appImage.Name newBase.Name], by simp, by simp, by simp⟩
  split
  · exact ⟨[.Rebase appImage.Name newBase.Name], by simp, by simp, by simp⟩
  rename_i contents hmar
  split
  · exact ⟨[.Rebase appImage.Name newBase.Name, .SetLabel appImage.Name MetadataLabel contents],
      by simp, by simp, by simp⟩
  split
  · exact ⟨[.Rebase appImage.Name newBase.Name, .SetLabel appImage.Name MetadataLabel contents,
      .Save appImage.Name], by simp, by simp, by simp⟩
  · refine ⟨[.Rebase appImage.Name newBase.Name, .SetLabel appImage.Name MetadataLabel contents,
      .Save appImage.Name], by simp, by simp, ?_⟩
    intro img himg
    simp only [Except.ok.injEq] at himg
    subst himg
    exact ⟨newBase, contents, hnb, rfl, rfl, hmar, by simp⟩

theorem UsesRunImage.of_resolved (c : RebaseClient) (opts : RebaseOptions)
    (tr : List RebaseEvent) (appImage : ImageHandle) (md : AppImageMetadata) (name : String)
    (hf : c.Fetch tr opts.RepoName (!opts.Publish) (!opts.SkipPull) = .ok appImage)
    (hm : readAppMetadata c appImage = .ok md)
    (hr : resolveRunImage c.domain opts.RepoName md.StackRunImage.Image md.StackRunImage.Mirrors
      opts.RunImage opts.AdditionalMirrors = .ok name) :
    UsesRunImage c opts tr md name := by
  obtain ⟨rest, h1, h2, h3⟩ := Rebase_resolved c opts tr appImage md name hf hm hr
  refine ⟨rest, h1, h2, ?_⟩
  intro img himg
  obtain ⟨newBase, contents, h4, _, h5, h6, h7⟩ := h3 img himg
  exact ⟨newBase, contents, h4, h5, h6, h7⟩

/-- C11: a rebase without override, of an application image whose metadata is
`md`. The candidates are the configured mirrors of the label's run image, then
the mirrors of the label, then the label's run image. The run image used is the
first candidate with the registry domain of `RepoName` (an empty string is no
candidate); when no candidate matches it is the label's run image, if that is
not empty; and when no candidate matches and the label's run image is empty,
the rebase fails with `run image must be specified`, having fetched nothing
but the application image. -/
theorem Rebase_without_override (c : RebaseClient) (opts : RebaseOptions)
    (tr : List RebaseEvent) (appImage : ImageHandle) (md : AppImageMetadata)
    (hov : opts.RunImage = "")
    (hf : c.Fetch tr opts.RepoName (!opts.Publish) (!opts.SkipPull) = .ok appImage)
    (hm : readAppMetadata c appImage = .ok md) :
    (∀ pre r post,
      opts.AdditionalMirrors md.StackRunImage.Image ++ md.StackRunImage.Mirrors ++
        [md.StackRunImage.Image] = pre ++ r :: post →
      (∀ x ∈ pre, ¬ (x ≠ "" ∧ c.domain x = c.domain opts.RepoName)) →
      (r ≠ "" ∧ c.domain r = c.domain opts.RepoName) →
      UsesRunImage c opts tr md r) ∧
    ((∀ x ∈ opts.AdditionalMirrors md.StackRunImage.Image ++ md.StackRunImage.Mirrors ++
        [md.StackRunImage.Image], ¬ (x ≠ "" ∧ c.domain x = c.domain opts.RepoName)) →
      md.StackRunImage.Image ≠ "" →
      UsesRunImage c opts tr md md.StackRunImage.Image) ∧
    ((∀ x ∈ opts.AdditionalMirrors md.StackRunImage.Image ++ md.StackRunImage.Mirrors ++
        [md.StackRunImage.Image], ¬ (x ≠ "" ∧ c.domain x = c.domain opts.RepoName)) →
      md.StackRunImage.Image = "" →
      Rebase c opts tr = (.error (.New "run image must be specified"),
        tr ++ [.Fetch opts.RepoName (!opts.Publish) (!opts.SkipPull)])) := by
  refine ⟨?_, ?_, ?_⟩
  · intro pre r post hl hpre hr
    apply UsesRunImage.of_resolved c opts tr appImage md r hf hm
    rw [hov]
    apply resolveRunImage_first_match c.domain opts.RepoName _ _ _ pre post r hl
    · intro x hx
      simpa [matchesDomain] using hpre x hx
    · simpa [matchesDomain] using hr
  · intro hnone hne
    apply UsesRunImage.of_resolved c opts tr appImage md _ hf hm
    rw [hov, resolveRunImage_no_match, if_pos hne]
    intro x hx
    simpa [matchesDomain] using hnone x hx
  · intro hnone he
    apply Rebase_unresolved c opts tr appImage md _ hf hm
    rw [hov, resolveRunImage_no_match, if_neg (by simpa using he)]
    · rfl
    · intro x hx
      simpa [matchesDomain] using hnone x hx

/-- C11 at the inputs of `rebase_test.go`. Repository `some/app` with the label
run image `some/run` and the label mirror `example.com/some/run` uses
`some/run`; repository `example.com/some/app` uses `example.com/some/run`;
with the configured mirror `example.com/some/local-run` of `some/run` it uses
`example.com/some/local-run`; and the label `{}` gives the error. -/
theorem Rebase_without_override_witness :
    UsesRunImage (testRebaseClient testAppLabel) (testRebaseOptions "some/app" "" []) []
      testMetadata "some/run" ∧
    UsesRunImage (testRebaseClient testAppLabel) (testRebaseOptions "example.com/some/app" "" [])
      [] testMetadata "example.com/some/run" ∧
    UsesRunImage (testRebaseClient testAppLabel)
      (testRebaseOptions "example.com/some/app" "" ["example.com/some/local-run"])
      [] testMetadata "example.com/some/local-run" ∧
    Rebase (testRebaseClient "\x7b\x7d") (testRebaseOptions "some/app" "" []) [] =
      (.error (.New "run image must be specified"), [] ++ [.Fetch "some/app" true true]) :=
  ⟨(Rebase_without_override (testRebaseClient testAppLabel) (testRebaseOptions "some/app" "" [])
      [] (testAppImage testAppLabel) testMetadata rfl rfl rfl).1
      ["example.com/some/run"] "some/run" [] rfl (by decide) (by decide),
   (Rebase_without_override (testRebaseClient testAppLabel)
      (testRebaseOptions "example.com/some/app" "" [])
      [] (testMirrorAppImage testAppLabel) testMetadata rfl rfl rfl).1
      [] "example.com/some/run" ["some/run"] rfl (by decide) (by decide),
   (Rebase_without_override (testRebaseClient testAppLabel)
      (testRebaseOptions "example.com/some/app" "" ["example.com/some/local-run"])
      [] (testMirrorAppImage testAppLabel) testMetadata rfl rfl rfl).1
      [] "example.com/some/local-run" ["example.com/some/run", "some/run"] rfl
      (by decide) (by decide),
   (Rebase_without_override (testRebaseClient "\x7b\x7d") (testRebaseOptions "some/app" "" [])
      [] (testAppImage "\x7b\x7d") ⟨⟨"", ""⟩, ⟨"", []⟩, ""⟩ rfl rfl rfl).2.2
      (by decide) rfl⟩

/-- C12: a rebase with a non-empty `RunImage` override. The resolver returns
the override whatever the label's run image, the label's mirrors, the
configured mirrors and the domain of the repository are; the rebase fetches
the override and no other run image; and after a successful rebase the base of
the application image is the image fetched under the override, and the
`runImage` field of its metadata label holds the top layer and the reference
of that image. -/
theorem Rebase_with_override (c : RebaseClient) (opts : RebaseOptions) (tr : List RebaseEvent)
    (hov : opts.RunImage ≠ "") :
    (∀ (domain : String → String) (repoName labelRunImage : String) (labelMirrors : List String)
        (additionalMirrors : String → List String),
      resolveRunImage domain repoName labelRunImage labelMirrors opts.RunImage additionalMirrors =
        .ok opts.RunImage) ∧
    (∀ appImage md, c.Fetch tr opts.RepoName (!opts.Publish) (!opts.SkipPull) = .ok appImage →
      readAppMetadata c appImage = .ok md →
      UsesRunImage c opts tr md opts.RunImage) := by
  refine ⟨?_, ?_⟩
  · intro domain repoName labelRunImage labelMirrors additionalMirrors
    exact resolveRunImage_override domain repoName labelRunImage labelMirrors _ _ hov
  · intro appImage md hf hm
    exact UsesRunImage.of_resolved c opts tr appImage md _ hf hm
      (resolveRunImage_override _ _ _ _ _ _ hov)

/-- C12 at the input of `rebase_test.go`: the override `custom/run` on the
application `some/app`, whose label names the run image `some/run`, gives the
base `custom/run` and a label with the top layer and the reference of
`custom/run`. -/
theorem Rebase_with_override_witness :
    UsesRunImage (testRebaseClient testAppLabel) (testRebaseOptions "some/app" "custom/run" []) []
      testMetadata "custom/run" ∧
    baseAfter (Rebase (testRebaseClient testAppLabel)
      (testRebaseOptions "some/app" "custom/run" []) []) = .ok "custom/run" ∧
    labelAfter (Rebase (testRebaseClient testAppLabel)
      (testRebaseOptions "some/app" "custom/run" []) []) =
      .ok "\x7b\"runImage\":\x7b\"topLayer\":\"custom-base-top-layer-sha\",\"reference\":\"custom-base-digest\"\x7d,\"stack\":\x7b\"runImage\":\x7b\"image\":\"some/run\"\x7d\x7d\x7d" :=
  ⟨(Rebase_with_override (testRebaseClient testAppLabel)
      (testRebaseOptions "some/app" "custom/run" []) [] (by decide)).2
      (testAppImage testAppLabel) testMetadata rfl rfl,
   by decide, by decide⟩

end Pack
